import Mathlib

/-!
# Machine-independent pmap interface (`osfmk/vm/pmap.h`)

A shallow embedding of the macros, constants and declarations of the
machine-independent physical-map header, and the properties they satisfy.

Conventions of the embedding:

* C machine words are natural numbers; a value converted to `unsigned int`
  is reduced modulo `2 ^ 32` (`to_uint`).
* A pointer (`pmap_t`, `void *`) is a natural number, `NULL` being `0`.
* A statement macro is a function from the caller's variables to a
  `macro_state`: the external calls it made, in order, the value of the
  caller's `result` variable, and whether `panic` was reached.
* Functions that the header only declares (`extern`) are parameters.
-/

namespace Pmap

/-! ## Types and constants -/

/-- A `kern_return_t` value. -/
abbrev kern_return_t := Int

/-- The null pointer. -/
def NULL : Nat := 0

/-- Conversion of an integer value to `unsigned int` (32 bits). -/
def to_uint (x : Nat) : Nat := x % 2 ^ 32

def PMAP_OPTIONS_NOWAIT : Nat := 0x1
def PMAP_OPTIONS_NOENTER : Nat := 0x2
def PMAP_OPTIONS_COMPRESSOR : Nat := 0x4
def PMAP_OPTIONS_INTERNAL : Nat := 0x8
def PMAP_OPTIONS_REUSABLE : Nat := 0x10
def PMAP_OPTIONS_NOFLUSH : Nat := 0x20
def PMAP_OPTIONS_NOREFMOD : Nat := 0x40
def PMAP_OPTIONS_ALT_ACCT : Nat := 0x80
def PMAP_OPTIONS_REMOVE : Nat := 0x100
def PMAP_OPTIONS_SET_REUSABLE : Nat := 0x200
def PMAP_OPTIONS_CLEAR_REUSABLE : Nat := 0x400
def PMAP_OPTIONS_COMPRESSOR_IFF_MODIFIED : Nat := 0x800
def PMAP_OPTIONS_PROTECT_IMMEDIATE : Nat := 0x1000
def PMAP_OPTIONS_CLEAR_WRITE : Nat := 0x2000
def PMAP_OPTIONS_TRANSLATED_ALLOW_EXECUTE : Nat := 0x4000
def PMAP_OPTIONS_FF_LOCKED : Nat := 0x8000
def PMAP_OPTIONS_FF_WIRED : Nat := 0x10000
def PMAP_OPTIONS_MAP_TPRO : Nat := 0x40000

def VM_MEM_MODIFIED : Nat := 0x01
/-- The fields of a `struct vm_object` that the macros of the header read or write. -/
structure vm_object where
  internal : Bool
  all_reusable : Bool
  set_cache_attr : Bool
  deriving DecidableEq, Repr

/-- A `vm_page_t`: the address of the page structure and the one field
(`vmp_reusable`) the macros read directly. -/
structure vm_page where
  addr : Nat
  vmp_reusable : Bool
  deriving DecidableEq, Repr

/-- The accessor macros of `vm/vm_page.h` and the machine parameters that the
macros of this header use without defining them. They are parameters. -/
structure vm_env where
  /-- Macro `VMP_ERROR_GET(page)`: non-zero when the page is flagged in error. -/
  VMP_ERROR_GET : vm_page → Nat
  /-- Macro `VM_PAGE_OBJECT(page)`: the object owning the page. -/
  VM_PAGE_OBJECT : vm_page → vm_object
  /-- Macro `VM_PAGE_GET_PHYS_PAGE(page)`: the physical page number (`ppnum_t`). -/
  VM_PAGE_GET_PHYS_PAGE : vm_page → Nat
  /-- Constant `PAGE_SHIFT`. -/
  PAGE_SHIFT : Nat
  /-- Width in bits of `pmap_paddr_t`. -/
  paddr_bits : Nat

/-- Arguments of one call of `pmap_enter_options`; for
`pmap_enter_options_addr` the third argument is a physical address. -/
structure enter_args where
  pmap : Nat
  v : Nat
  pn : Nat
  prot : Nat
  fault_type : Nat
  flags : Nat
  wired : Nat
  options : Nat
  arg : Nat
  deriving DecidableEq, Repr

/-- An external call made by a macro. -/
inductive pmap_call where
  | enter_options (a : enter_args)
  | enter_options_addr (a : enter_args)
  deriving DecidableEq, Repr

/-- What a statement macro leaves behind. -/
structure macro_state where
  /-- External calls made, oldest first. -/
  calls : List pmap_call
  /-- The caller's `result` variable. -/
  result : kern_return_t
  /-- Whether `panic` was called (it does not return). -/
  panicked : Bool
  deriving DecidableEq, Repr

/-! ## The enter macros -/

/-- Macro `PMAP_ENTER_CHECK(pmap, page)`: `true` when the check passes, `false`
when it calls `panic`. -/
def PMAP_ENTER_CHECK (env : vm_env) (_pmap : Nat) (page : vm_page) : Bool :=
  if env.VMP_ERROR_GET page ≠ 0 then false else true

/-- The option bits both enter macros derive from the page and its object:
starting from `0`, `|= PMAP_OPTIONS_INTERNAL` if the object is internal, then
`|= PMAP_OPTIONS_REUSABLE` if the page or the whole object is reusable. -/
def enter_extra_options (env : vm_env) (page : vm_page) : Nat :=
  let obj := env.VM_PAGE_OBJECT page
  let o0 : Nat := 0
  let o1 := if obj.internal then o0 ||| PMAP_OPTIONS_INTERNAL else o0
  let o2 := if page.vmp_reusable || obj.all_reusable then o1 ||| PMAP_OPTIONS_REUSABLE else o1
  o2

/-- Macro `PMAP_ENTER(pmap, virtual_address, page, protection, fault_type, flags,
wired, result)`. `result0` is the value of `result` before the macro. -/
def PMAP_ENTER (env : vm_env) (pmap_enter_options : enter_args → kern_return_t)
    (pmap virtual_address : Nat) (page : vm_page)
    (protection fault_type flags wired : Nat) (result0 : kern_return_t) : macro_state :=
  if PMAP_ENTER_CHECK env pmap page then
    let options := enter_extra_options env page
    let a : enter_args :=
      { pmap := pmap, v := virtual_address, pn := env.VM_PAGE_GET_PHYS_PAGE page,
        prot := protection, fault_type := fault_type, flags := flags, wired := wired,
        options := to_uint options, arg := NULL }
    { calls := [pmap_call.enter_options a], result := pmap_enter_options a, panicked := false }
  else
    { calls := [], result := result0, panicked := true }

/-- The physical address `PMAP_ENTER_OPTIONS` computes:
`((pmap_paddr_t) VM_PAGE_GET_PHYS_PAGE(page) << PAGE_SHIFT) + fault_phys_offset`,
as a `pmap_paddr_t`. -/
def enter_phys_addr (env : vm_env) (page : vm_page) (fault_phys_offset : Nat) : Nat :=
  let widened := env.VM_PAGE_GET_PHYS_PAGE page % 2 ^ env.paddr_bits
  let shifted := (widened <<< env.PAGE_SHIFT) % 2 ^ env.paddr_bits
  (shifted + fault_phys_offset) % 2 ^ env.paddr_bits

/-- Macro `PMAP_ENTER_OPTIONS(pmap, virtual_address, fault_phys_offset, page,
protection, fault_type, flags, wired, options, result)`. -/
def PMAP_ENTER_OPTIONS (env : vm_env) (pmap_enter_options_addr : enter_args → kern_return_t)
    (pmap virtual_address fault_phys_offset : Nat) (page : vm_page)
    (protection fault_type flags wired options : Nat) (result0 : kern_return_t) : macro_state :=
  if PMAP_ENTER_CHECK env pmap page then
    let extra_options := enter_extra_options env page
    let a : enter_args :=
      { pmap := pmap, v := virtual_address, pn := enter_phys_addr env page fault_phys_offset,
        prot := protection, fault_type := fault_type, flags := flags, wired := wired,
        options := to_uint (options ||| extra_options), arg := NULL }
    { calls := [pmap_call.enter_options_addr a], result := pmap_enter_options_addr a,
      panicked := false }
  else
    { calls := [], result := result0, panicked := true }

/-! ## Creation flags -/

/-- The preprocessor conditions that select the creation-flag definitions. -/
structure build_config where
  /-- Condition `__x86_64__`. -/
  x86_64 : Bool
  /-- Condition `__arm64e__`. -/
  arm64e : Bool
  /-- Condition `__ARM_MIXED_PAGE_SIZE__`. -/
  mixed_page_size : Bool
  /-- Condition `CONFIG_ROSETTA`. -/
  rosetta : Bool
  deriving DecidableEq, Repr

def PMAP_CREATE_64BIT : Nat := 0x1

/-- Defined in the `__x86_64__` branch only. -/
def PMAP_CREATE_EPT : Nat := 0x2

/-- Defined in the `#else` branch of `#if __x86_64__`. -/
def PMAP_CREATE_STAGE2 : Nat := 0

/-- Defined in the `#else` branch of `#if __x86_64__`. -/
def PMAP_CREATE_DISABLE_JOP (c : build_config) : Nat := if c.arm64e then 0x4 else 0

/-- Defined in the `#else` branch of `#if __x86_64__`. -/
def PMAP_CREATE_FORCE_4K_PAGES (c : build_config) : Nat := if c.mixed_page_size then 0x8 else 0

/-- Defined in the `#else` branch of `#if __x86_64__`. -/
def PMAP_CREATE_X86_64 : Nat := 0

/-- Defined in the `#else` branch of `#if __x86_64__`. -/
def PMAP_CREATE_ROSETTA (c : build_config) : Nat := if c.rosetta then 0x20 else 0

def PMAP_CREATE_KNOWN_FLAGS (c : build_config) : Nat :=
  if c.x86_64 then
    PMAP_CREATE_64BIT ||| PMAP_CREATE_EPT
  else
    PMAP_CREATE_64BIT ||| PMAP_CREATE_STAGE2 ||| PMAP_CREATE_DISABLE_JOP c |||
      PMAP_CREATE_FORCE_4K_PAGES c ||| PMAP_CREATE_X86_64 ||| PMAP_CREATE_ROSETTA c

/-- The creation flags a configuration defines, in the order of the header. -/
def defined_create_flags (c : build_config) : List Nat :=
  if c.x86_64 then
    [PMAP_CREATE_64BIT, PMAP_CREATE_EPT]
  else
    [PMAP_CREATE_64BIT, PMAP_CREATE_STAGE2, PMAP_CREATE_DISABLE_JOP c,
      PMAP_CREATE_FORCE_4K_PAGES c, PMAP_CREATE_X86_64, PMAP_CREATE_ROSETTA c]

/-- Bitwise complement of an `unsigned int`. -/
def not_uint (x : Nat) : Nat := 0xFFFFFFFF ^^^ to_uint x

/-- Modelled from the spec: the body of `pmap_create_options` is not in the
header; the spec says its `flags` argument is validated against the
known-flags mask and unknown bits are rejected. The test is
`(flags & ~PMAP_CREATE_KNOWN_FLAGS) == 0` on `unsigned int`. -/
def known_flags_check (c : build_config) (flags : Nat) : Bool :=
  to_uint flags &&& not_uint (PMAP_CREATE_KNOWN_FLAGS c) == 0

/-! ## Declared signatures -/

/-- The operations of the interface whose return type matters below. -/
inductive pmap_op where
  | pmap_reference | pmap_destroy
  | pmap_enter | pmap_enter_options | pmap_enter_options_addr
  | pmap_remove | pmap_remove_options
  | pmap_protect | pmap_protect_options
  | pmap_change_wiring
  | pmap_nest | pmap_unnest | pmap_unnest_options
  | pmap_trim
  deriving DecidableEq, Repr

/-- C return types occurring in those declarations. -/
inductive c_type where
  | void
  | kern_return_t
  deriving DecidableEq, Repr

/-- The return type each operation is declared with. -/
def return_type : pmap_op → c_type
  | pmap_op.pmap_reference => c_type.void
  | pmap_op.pmap_destroy => c_type.void
  | pmap_op.pmap_enter => c_type.kern_return_t
  | pmap_op.pmap_enter_options => c_type.kern_return_t
  | pmap_op.pmap_enter_options_addr => c_type.kern_return_t
  | pmap_op.pmap_remove => c_type.void
  | pmap_op.pmap_remove_options => c_type.void
  | pmap_op.pmap_protect => c_type.void
  | pmap_op.pmap_protect_options => c_type.void
  | pmap_op.pmap_change_wiring => c_type.void
  | pmap_op.pmap_nest => c_type.kern_return_t
  | pmap_op.pmap_unnest => c_type.kern_return_t
  | pmap_op.pmap_unnest_options => c_type.kern_return_t
  | pmap_op.pmap_trim => c_type.void

/-- The mutating operations the specification enumerates: enter, remove,
remove_options, protect, protect_options, change_wiring, nest, unnest, trim,
reference, destroy. -/
def mutating_ops : List pmap_op :=
  [pmap_op.pmap_enter, pmap_op.pmap_remove, pmap_op.pmap_remove_options,
    pmap_op.pmap_protect, pmap_op.pmap_protect_options, pmap_op.pmap_change_wiring,
    pmap_op.pmap_nest, pmap_op.pmap_unnest, pmap_op.pmap_trim,
    pmap_op.pmap_reference, pmap_op.pmap_destroy]

/-! ## Page dispositions -/

def PMAP_QUERY_PAGE_PRESENT : Nat := 0x01
def PMAP_QUERY_PAGE_REUSABLE : Nat := 0x02
def PMAP_QUERY_PAGE_INTERNAL : Nat := 0x04
def PMAP_QUERY_PAGE_ALTACCT : Nat := 0x08
def PMAP_QUERY_PAGE_COMPRESSED : Nat := 0x10
def PMAP_QUERY_PAGE_COMPRESSED_ALTACCT : Nat := 0x20

/-- The six dispositions `pmap_query_page_info` reports through `*disp`. -/
inductive query_disp where
  | present | reusable | internal | altacct | compressed | compressed_altacct
  deriving DecidableEq, Repr

/-- The flag of each disposition. -/
def query_flag : query_disp → Nat
  | query_disp.present => PMAP_QUERY_PAGE_PRESENT
  | query_disp.reusable => PMAP_QUERY_PAGE_REUSABLE
  | query_disp.internal => PMAP_QUERY_PAGE_INTERNAL
  | query_disp.altacct => PMAP_QUERY_PAGE_ALTACCT
  | query_disp.compressed => PMAP_QUERY_PAGE_COMPRESSED
  | query_disp.compressed_altacct => PMAP_QUERY_PAGE_COMPRESSED_ALTACCT

/-- All six dispositions. -/
def all_query_disp : List query_disp :=
  [query_disp.present, query_disp.reusable, query_disp.internal, query_disp.altacct,
    query_disp.compressed, query_disp.compressed_altacct]

/-- The disposition word of a set of dispositions: the OR of the flags of its
members. -/
def disposition (s : query_disp → Bool) : Nat :=
  all_query_disp.foldl (fun acc d => acc ||| (if s d then query_flag d else 0)) 0

/-! ## The mapping store and the reference/modify tracker

The header declares these operations without a body. The definitions below
follow the specification of the interface; each says which sentences it
follows. -/

/-- Success code of `mach/kern_return.h`. -/
def KERN_SUCCESS : kern_return_t := 0

/-- Invalid-address code of `mach/kern_return.h`. -/
def KERN_INVALID_ADDRESS : kern_return_t := 1

/-- Denial code of `mach/kern_return.h`. -/
def KERN_DENIED : kern_return_t := 53

/-- One mapping entry of one address space: virtual address, physical page
number, protection, wired flag and the cache attribute bits of `flags`. -/
structure mapping_entry where
  pmap : Nat
  va : Nat
  pn : Nat
  prot : Nat
  wired : Bool
  flags : Nat
  deriving DecidableEq, Repr

/-- The state the operations act on: the mapping entries of every address
space, and the two-bit reference/modify state of every physical page. -/
structure pmap_system where
  mappings : List mapping_entry
  refmod : Nat → Nat

/-- What the platform supports among the optional operations. -/
structure platform where
  /-- Whether the optimized range reference/modify clear is available. -/
  range_refmod_clear : Bool
  deriving DecidableEq, Repr

/-- What a call leaves: the new state, and the value returned to the caller,
`none` for a function declared `void`. -/
structure call_result where
  state : pmap_system
  ret : Option kern_return_t

/-- At most one entry per virtual address and address space. -/
def mappings_wf (sys : pmap_system) : Prop :=
  (sys.mappings.map (fun m => (m.pmap, m.va))).Nodup

instance (sys : pmap_system) : Decidable (mappings_wf sys) := by
  unfold mappings_wf; infer_instance

/-- Insert an entry, or update in place the entry of the same address space
and virtual address. -/
def enter_entry (new : mapping_entry) : List mapping_entry → List mapping_entry
  | [] => [new]
  | m :: ms =>
    if m.pmap = new.pmap ∧ m.va = new.va then new :: ms else m :: enter_entry new ms

/-- When Enter refuses a request. The spec gives Enter an invalid-address
return for a malformed address and, in restricted configurations, a denial
by the trust boundary gate, without saying which addresses are malformed or
which mappings are refused; both are parameters. -/
structure enter_policy where
  /-- Whether virtual address `v` is malformed for address space `pmap`. -/
  malformed_address : (pmap v : Nat) → Bool
  /-- Whether the trust boundary gate refuses the mapping. -/
  trust_refuses : (pmap v pn prot : Nat) → Bool

/-- Modelled from the spec: the body of `pmap_enter` is not in the header.
Enter "returns success, or resource-shortage, or invalid-address, or a
denial"; it "inserts or updates one mapping" and "entering a mapping over an
existing one updates in place rather than duplicating". A malformed address
and a refusal by the trust boundary gate are reported to the caller and leave
the state as it is. `pmap_enter` has no options argument, so it is the
blocking Enter, which waits for memory instead of reporting a shortage. -/
def pmap_enter (pol : enter_policy) (sys : pmap_system)
    (pmap v pn prot _fault_type flags wired : Nat) : call_result :=
  if pol.malformed_address pmap v then
    { state := sys, ret := some KERN_INVALID_ADDRESS }
  else if pol.trust_refuses pmap v pn prot then
    { state := sys, ret := some KERN_DENIED }
  else
    { state :=
        { sys with
          mappings :=
            enter_entry
              { pmap := pmap, va := v, pn := pn, prot := prot, wired := wired != 0,
                flags := flags }
              sys.mappings }
      ret := some KERN_SUCCESS }

/-- Whether protection `new` grants an access right that `cur` lacks: some
bit of `new` is not a bit of `cur`. -/
def grants_new_right (cur new : Nat) : Bool :=
  new ||| cur != cur

/-- Protection change of one entry: narrowing is applied; widening is applied
only with `PMAP_OPTIONS_PROTECT_IMMEDIATE` and is otherwise rejected, the
entry staying as it is. -/
def protect_entry (prot options : Nat) (m : mapping_entry) : mapping_entry :=
  if grants_new_right m.prot prot then
    if options &&& PMAP_OPTIONS_PROTECT_IMMEDIATE != 0 then { m with prot := prot }
    else m
  else { m with prot := prot }

/-- Modelled from the spec: the body of `pmap_protect_options` is not in the
header. Protect "narrows or (if explicitly permitted via an immediate option)
widens protection over a range; widening without that option is rejected".
The function is declared `void`: nothing is returned. -/
def pmap_protect_options (sys : pmap_system) (map s e prot options _arg : Nat) :
    call_result :=
  { state :=
      { sys with
        mappings :=
          sys.mappings.map (fun m =>
            if m.pmap = map ∧ s ≤ m.va ∧ m.va < e then protect_entry prot options m else m) }
    ret := none }

/-- Modelled from the spec: the body of `pmap_protect` is not in the header;
it is Protect without options. -/
def pmap_protect (sys : pmap_system) (map s e prot : Nat) : call_result :=
  pmap_protect_options sys map s e prot 0 NULL

/-- Modelled from the spec: the body of `pmap_get_refmod` is not in the
header; GetRefMod returns the combined bitmask of the page. -/
def pmap_get_refmod (sys : pmap_system) (pn : Nat) : Nat :=
  sys.refmod pn

/-- Modelled from the spec: the body of `pmap_set_modify` is not in the
header; SetModify is an "unconditional bit mutation". -/
def pmap_set_modify (sys : pmap_system) (pn : Nat) : pmap_system :=
  { sys with refmod := Function.update sys.refmod pn (sys.refmod pn ||| VM_MEM_MODIFIED) }

/-- Modelled from the spec: the body of `pmap_clear_refmod` is not in the
header, which keeps the bits per physical address ("Clear modified and
referenced bits"). ClearRefMod "clears only the requested bits" of the page
and "must be safe to call on an unmapped page": it is defined on every page
and touches no mapping. -/
def pmap_clear_refmod (sys : pmap_system) (pn mask : Nat) : pmap_system :=
  { sys with refmod := Function.update sys.refmod pn (sys.refmod pn &&& not_uint mask) }

/-- Whether the address space maps the physical page inside `[start, end)`. -/
def mapped_in_range (sys : pmap_system) (pmap start end_ pn : Nat) : Bool :=
  sys.mappings.any (fun m => m.pmap == pmap && decide (start ≤ m.va) && decide (m.va < end_)
    && m.pn == pn)

/-- Modelled from the spec: the body of `pmap_clear_refmod_range_options` is
not in the header. It is "all-or-nothing: if the platform cannot perform the
optimized range clear, it must change nothing and return failure"; otherwise
the requested bits are cleared on every page the range maps and it returns
`true`. -/
def pmap_clear_refmod_range_options (plat : platform) (sys : pmap_system)
    (pmap start end_ mask _options : Nat) : pmap_system × Bool :=
  if plat.range_refmod_clear then
    ({ sys with
        refmod := fun pn =>
          if mapped_in_range sys pmap start end_ pn then sys.refmod pn &&& not_uint mask
          else sys.refmod pn },
      true)
  else (sys, false)

/-- The states the operations above produce from a system without mappings. -/
inductive reachable (plat : platform) : pmap_system → Prop where
  | init (refmod : Nat → Nat) : reachable plat { mappings := [], refmod := refmod }
  | enter {sys : pmap_system} (pol : enter_policy)
    (pmap v pn prot fault_type flags wired : Nat) :
    reachable plat sys →
    reachable plat (pmap_enter pol sys pmap v pn prot fault_type flags wired).state
  | protect {sys : pmap_system} (map s e prot options arg : Nat) :
    reachable plat sys →
    reachable plat (pmap_protect_options sys map s e prot options arg).state
  | set_modify {sys : pmap_system} (pn : Nat) :
    reachable plat sys → reachable plat (pmap_set_modify sys pn)
  | clear_refmod {sys : pmap_system} (pn mask : Nat) :
    reachable plat sys → reachable plat (pmap_clear_refmod sys pn mask)
  | clear_refmod_range {sys : pmap_system} (pmap start end_ mask options : Nat) :
    reachable plat sys →
    reachable plat (pmap_clear_refmod_range_options plat sys pmap start end_ mask options).1

/-! ## The cache-attribute macros -/

/-- One entry of a `upl_page_info_array_t`: the field the macros read. -/
structure upl_page_info where
  phys_addr : Nat
  deriving DecidableEq, Repr

/-- A `upl_page_info_array_t`: the address of the array and its entries by
index. -/
structure upl_page_info_array where
  base : Nat
  entry : Nat → upl_page_info

/-- An external call made by a cache-attribute macro. -/
inductive cache_attr_call where
  | set_cache_attributes (pn : Nat) (cache_attr : Nat)
  | batch_set_cache_attributes (user_page_list : Nat) (num_pages : Nat) (cache_attr : Nat)
  deriving DecidableEq, Repr

/-- What a cache-attribute macro leaves behind: the external calls made,
oldest first, the indices of `user_page_list` it read, oldest first, and the
object. -/
structure cache_state where
  calls : List cache_attr_call
  reads : List Nat
  object : vm_object
  deriving DecidableEq, Repr

/-- Macro `PMAP_SET_CACHE_ATTR(mem, object, cache_attr, batch_pmap_op)`;
`batch_pmap_op` is a `boolean_t`, true when non-zero. -/
def PMAP_SET_CACHE_ATTR (env : vm_env) (mem : vm_page) (object : vm_object)
    (cache_attr batch_pmap_op : Nat) : cache_state :=
  if batch_pmap_op = 0 then
    { calls := [cache_attr_call.set_cache_attributes (env.VM_PAGE_GET_PHYS_PAGE mem) cache_attr]
      reads := []
      object := { object with set_cache_attr := true } }
  else
    { calls := [], reads := [], object := object }

/-- The loop of the variant of `PMAP_BATCH_SET_CACHE_ATTR` for machines other
than ARM: `while (__page_idx < (num_pages))`, the body calling
`pmap_set_cache_attributes(user_page_list[__page_idx].phys_addr, cache_attr)`
and incrementing the `unsigned int` index. Each unit of fuel pays for one
evaluation of the loop condition; `none` when the fuel runs out. -/
def batch_set_loop (user_page_list : upl_page_info_array) (cache_attr num_pages : Nat) :
    Nat → Nat → cache_state → Option cache_state
  | 0, _, _ => none
  | fuel + 1, page_idx, st =>
    if page_idx < num_pages then
      batch_set_loop user_page_list cache_attr num_pages fuel (to_uint (page_idx + 1))
        { st with
          calls :=
            st.calls ++
              [cache_attr_call.set_cache_attributes (user_page_list.entry page_idx).phys_addr
                cache_attr]
          reads := st.reads ++ [page_idx] }
    else some st

/-- Macro `PMAP_BATCH_SET_CACHE_ATTR(object, user_page_list, cache_attr,
num_pages, batch_pmap_op)`. With `arm` (`defined(__arm__) ||
defined(__arm64__)`) it calls `pmap_batch_set_cache_attributes` and discards
the `bool` it returns; otherwise it runs the loop, with the given fuel. -/
def PMAP_BATCH_SET_CACHE_ATTR (arm : Bool)
    (pmap_batch_set_cache_attributes : Nat → Nat → Nat → Bool) (fuel : Nat)
    (object : vm_object) (user_page_list : upl_page_info_array)
    (cache_attr num_pages batch_pmap_op : Nat) : Option cache_state :=
  if batch_pmap_op ≠ 0 then
    if arm then
      let _discarded := pmap_batch_set_cache_attributes user_page_list.base num_pages cache_attr
      some
        { calls :=
            [cache_attr_call.batch_set_cache_attributes user_page_list.base num_pages cache_attr]
          reads := []
          object := { object with set_cache_attr := true } }
    else
      (batch_set_loop user_page_list cache_attr num_pages fuel 0
          { calls := [], reads := [], object := object }).map
        (fun st => { st with object := { st.object with set_cache_attr := true } })
  else some { calls := [], reads := [], object := object }

/-! ## The exotic query -/

/-- Expression `pmap_is_exotic(pmap)` evaluated in a state `st`, giving the
state after it and its value: with `arm64` (`__arm64__`) the external
function, here a parameter; otherwise the macro, which expands to `false`. -/
def pmap_is_exotic {σ : Type} (arm64 : Bool) (pmap_is_exotic_arm64 : σ → Nat → σ × Bool)
    (st : σ) (pmap : Nat) : σ × Bool :=
  if arm64 then pmap_is_exotic_arm64 st pmap else (st, false)

/-! ## The option bits -/

/-- The `PMAP_OPTIONS_*` constants of the header; `FF_LOCKED` and `FF_WIRED`
are defined on ARM only. -/
inductive pmap_option where
  | NOWAIT | NOENTER | COMPRESSOR | INTERNAL | REUSABLE | NOFLUSH | NOREFMOD | ALT_ACCT
  | REMOVE | SET_REUSABLE | CLEAR_REUSABLE | COMPRESSOR_IFF_MODIFIED | PROTECT_IMMEDIATE
  | CLEAR_WRITE | TRANSLATED_ALLOW_EXECUTE | FF_LOCKED | FF_WIRED | MAP_TPRO
  deriving DecidableEq, Repr

/-- The value of each option constant. -/
def option_flag : pmap_option → Nat
  | pmap_option.NOWAIT => PMAP_OPTIONS_NOWAIT
  | pmap_option.NOENTER => PMAP_OPTIONS_NOENTER
  | pmap_option.COMPRESSOR => PMAP_OPTIONS_COMPRESSOR
  | pmap_option.INTERNAL => PMAP_OPTIONS_INTERNAL
  | pmap_option.REUSABLE => PMAP_OPTIONS_REUSABLE
  | pmap_option.NOFLUSH => PMAP_OPTIONS_NOFLUSH
  | pmap_option.NOREFMOD => PMAP_OPTIONS_NOREFMOD
  | pmap_option.ALT_ACCT => PMAP_OPTIONS_ALT_ACCT
  | pmap_option.REMOVE => PMAP_OPTIONS_REMOVE
  | pmap_option.SET_REUSABLE => PMAP_OPTIONS_SET_REUSABLE
  | pmap_option.CLEAR_REUSABLE => PMAP_OPTIONS_CLEAR_REUSABLE
  | pmap_option.COMPRESSOR_IFF_MODIFIED => PMAP_OPTIONS_COMPRESSOR_IFF_MODIFIED
  | pmap_option.PROTECT_IMMEDIATE => PMAP_OPTIONS_PROTECT_IMMEDIATE
  | pmap_option.CLEAR_WRITE => PMAP_OPTIONS_CLEAR_WRITE
  | pmap_option.TRANSLATED_ALLOW_EXECUTE => PMAP_OPTIONS_TRANSLATED_ALLOW_EXECUTE
  | pmap_option.FF_LOCKED => PMAP_OPTIONS_FF_LOCKED
  | pmap_option.FF_WIRED => PMAP_OPTIONS_FF_WIRED
  | pmap_option.MAP_TPRO => PMAP_OPTIONS_MAP_TPRO

/-- All eighteen options, in the order of the header. -/
def all_pmap_options : List pmap_option :=
  [pmap_option.NOWAIT, pmap_option.NOENTER, pmap_option.COMPRESSOR, pmap_option.INTERNAL,
    pmap_option.REUSABLE, pmap_option.NOFLUSH, pmap_option.NOREFMOD, pmap_option.ALT_ACCT,
    pmap_option.REMOVE, pmap_option.SET_REUSABLE, pmap_option.CLEAR_REUSABLE,
    pmap_option.COMPRESSOR_IFF_MODIFIED, pmap_option.PROTECT_IMMEDIATE,
    pmap_option.CLEAR_WRITE, pmap_option.TRANSLATED_ALLOW_EXECUTE, pmap_option.FF_LOCKED,
    pmap_option.FF_WIRED, pmap_option.MAP_TPRO]

/-- The position of the bit of each option; used to state that the constant
is a single bit. -/
def option_bit : pmap_option → Nat
  | pmap_option.NOWAIT => 0
  | pmap_option.NOENTER => 1
  | pmap_option.COMPRESSOR => 2
  | pmap_option.INTERNAL => 3
  | pmap_option.REUSABLE => 4
  | pmap_option.NOFLUSH => 5
  | pmap_option.NOREFMOD => 6
  | pmap_option.ALT_ACCT => 7
  | pmap_option.REMOVE => 8
  | pmap_option.SET_REUSABLE => 9
  | pmap_option.CLEAR_REUSABLE => 10
  | pmap_option.COMPRESSOR_IFF_MODIFIED => 11
  | pmap_option.PROTECT_IMMEDIATE => 12
  | pmap_option.CLEAR_WRITE => 13
  | pmap_option.TRANSLATED_ALLOW_EXECUTE => 14
  | pmap_option.FF_LOCKED => 15
  | pmap_option.FF_WIRED => 16
  | pmap_option.MAP_TPRO => 18

/-- The options word of a set of options: the OR of the constants of its
members. -/
def options_word (s : pmap_option → Bool) : Nat :=
  all_pmap_options.foldl (fun acc o => acc ||| (if s o then option_flag o else 0)) 0

/-! ## Concrete instances used to exercise the theorems -/

/-- An environment with 16 KiB pages and 64-bit physical addresses: the page
at address `0xBAD0` is flagged in error, pages at odd multiples of `0x100`
belong to an internal object, the page number is the address divided by
`0x100`. -/
def example_env : vm_env :=
  { VMP_ERROR_GET := fun p => if p.addr = 0xBAD0 then 1 else 0
    VM_PAGE_OBJECT := fun p =>
      { internal := (p.addr / 0x100) % 2 == 1, all_reusable := false, set_cache_attr := false }
    VM_PAGE_GET_PHYS_PAGE := fun p => p.addr / 0x100
    PAGE_SHIFT := 14
    paddr_bits := 64 }

/-- A stand-in for the external enter functions: succeeds unless the
non-blocking option is set. -/
def example_enter (a : enter_args) : kern_return_t :=
  if a.options &&& PMAP_OPTIONS_NOWAIT != 0 then 6 else 0

/-- A reusable page of an internal object. -/
def example_page : vm_page := { addr := 0x4100, vmp_reusable := true }

/-- The page flagged in error. -/
def example_bad_page : vm_page := { addr := 0xBAD0, vmp_reusable := false }

/-- A system with two address spaces: space `1` maps page `7` read-only at
`0x4000` and page `8` read-write at `0x8000`, space `2` maps page `7`
read-only at `0x4000`; page `7` is referenced and modified, page `8` is
modified, page `9` is unmapped and modified. -/
def example_sys : pmap_system :=
  { mappings :=
      [{ pmap := 1, va := 0x4000, pn := 7, prot := 1, wired := false, flags := 0 },
        { pmap := 1, va := 0x8000, pn := 8, prot := 3, wired := true, flags := 0 },
        { pmap := 2, va := 0x4000, pn := 7, prot := 1, wired := false, flags := 0 }]
    refmod := fun pn => if pn = 7 then 3 else if pn = 8 then 1 else if pn = 9 then 1 else 0 }

/-- A page list at address `0x9000` whose entry `i` holds page `100 + i`. -/
def example_upl : upl_page_info_array :=
  { base := 0x9000, entry := fun i => { phys_addr := 100 + i } }

/-- An external object whose cache attribute has not been set. -/
def example_object : vm_object :=
  { internal := false, all_reusable := false, set_cache_attr := false }

/-- A stand-in for `pmap_batch_set_cache_attributes` that reports failure. -/
def example_batch_fails (_user_page_list _num_pages _cache_attr : Nat) : Bool := false

/-! ## Auxiliary lemmas -/

/-- A bit set in a number below `2 ^ k` has index below `k`. -/
theorem testBit_of_lt_pow {n k : Nat} (hn : n < 2 ^ k) {i : Nat} (hi : n.testBit i = true) :
    i < k := by
  by_contra hlt
  have hle : k ≤ i := Nat.le_of_not_lt hlt
  have h2 : n < 2 ^ i := lt_of_lt_of_le hn (Nat.pow_le_pow_right (by decide) hle)
  rw [Nat.testBit_lt_two_pow h2] at hi
  exact Bool.noConfusion hi

/-- The derived option bits as a sum of the two flags. -/
theorem enter_extra_options_cases (env : vm_env) (page : vm_page) :
    enter_extra_options env page =
      (if (env.VM_PAGE_OBJECT page).internal then 0x8 else 0) +
        (if page.vmp_reusable || (env.VM_PAGE_OBJECT page).all_reusable then 0x10 else 0) := by
  dsimp only [enter_extra_options, PMAP_OPTIONS_INTERNAL, PMAP_OPTIONS_REUSABLE]
  cases (env.VM_PAGE_OBJECT page).internal <;> cases page.vmp_reusable <;>
    cases (env.VM_PAGE_OBJECT page).all_reusable <;> rfl

/-- The derived option bits fit an `unsigned int`. -/
theorem enter_extra_options_lt (env : vm_env) (page : vm_page) :
    enter_extra_options env page < 2 ^ 32 := by
  rw [enter_extra_options_cases]
  cases (env.VM_PAGE_OBJECT page).internal <;> cases page.vmp_reusable <;>
    cases (env.VM_PAGE_OBJECT page).all_reusable <;> decide

/-- The derived option bits lie at positions 3 and 4. -/
theorem enter_extra_options_bits (env : vm_env) (page : vm_page) (i : Nat)
    (hi : (enter_extra_options env page).testBit i = true) : i = 3 ∨ i = 4 := by
  rw [enter_extra_options_cases] at hi
  have hlt : i < 5 := by
    refine testBit_of_lt_pow ?_ hi
    cases (env.VM_PAGE_OBJECT page).internal <;> cases page.vmp_reusable <;>
      cases (env.VM_PAGE_OBJECT page).all_reusable <;> decide
  revert hi
  cases (env.VM_PAGE_OBJECT page).internal <;> cases page.vmp_reusable <;>
    cases (env.VM_PAGE_OBJECT page).all_reusable <;>
    interval_cases i <;> decide

/-- The check passes exactly when the error indication is zero. -/
theorem PMAP_ENTER_CHECK_eq (env : vm_env) (pmap : Nat) (page : vm_page) :
    PMAP_ENTER_CHECK env pmap page = decide (env.VMP_ERROR_GET page = 0) := by
  unfold PMAP_ENTER_CHECK
  by_cases h : env.VMP_ERROR_GET page = 0 <;> simp [h]

/-- Testing a mask `k` is unaffected by OR-ing bits outside `k`. -/
theorem or_and_of_bits_disjoint (o e k : Nat)
    (h : ∀ i, e.testBit i = true → k.testBit i = false) : (o ||| e) &&& k = o &&& k := by
  apply Nat.eq_of_testBit_eq
  intro i
  rw [Nat.testBit_and, Nat.testBit_and, Nat.testBit_or]
  cases he : e.testBit i
  · simp
  · simp [h i he]

/-- Conversion to `unsigned int` keeps the derived option bits. -/
theorem to_uint_enter_extra_options (env : vm_env) (page : vm_page) :
    to_uint (enter_extra_options env page) = enter_extra_options env page :=
  Nat.mod_eq_of_lt (enter_extra_options_lt env page)

/-- Conversion to `unsigned int` keeps an `unsigned int` OR-ed with the derived option bits. -/
theorem to_uint_or_enter_extra_options (env : vm_env) (page : vm_page) (o : Nat)
    (ho : o < 2 ^ 32) :
    to_uint (o ||| enter_extra_options env page) = o ||| enter_extra_options env page :=
  Nat.mod_eq_of_lt (Nat.or_lt_two_pow ho (enter_extra_options_lt env page))

/-- Bits of the all-ones 32-bit word. -/
theorem testBit_mask32 (i : Nat) : Nat.testBit 0xFFFFFFFF i = decide (i < 32) := by
  have h : (0xFFFFFFFF : Nat) = 2 ^ 32 - 1 := by norm_num
  rw [h, Nat.testBit_two_pow_sub_one]

/-- Bits of the 32-bit complement. -/
theorem testBit_not_uint (x i : Nat) :
    (not_uint x).testBit i = (decide (i < 32) && !x.testBit i) := by
  unfold not_uint to_uint
  rw [Nat.testBit_xor, testBit_mask32, Nat.testBit_mod_two_pow]
  by_cases h : i < 32 <;> simp [h]

/-- An `unsigned int` has no bit outside `k` iff each of its bits is a bit of `k`. -/
theorem and_not_uint_eq_zero_iff (f k : Nat) (hf : f < 2 ^ 32) :
    to_uint f &&& not_uint k = 0 ↔ ∀ i, f.testBit i = true → k.testBit i = true := by
  have hfm : to_uint f = f := Nat.mod_eq_of_lt hf
  rw [hfm]
  constructor
  · intro h i hi
    have hi32 : i < 32 := testBit_of_lt_pow hf hi
    have hb := congrArg (fun n => n.testBit i) h
    simp only [Nat.testBit_and, testBit_not_uint, hi, hi32, Nat.zero_testBit] at hb
    simpa using hb
  · intro h
    apply Nat.eq_of_testBit_eq
    intro i
    rw [Nat.testBit_and, testBit_not_uint, Nat.zero_testBit]
    cases hi : f.testBit i
    · simp
    · simp [h i hi]

/-- A bit of an OR over a list is set iff it is set in the start value or in a member. -/
theorem testBit_foldl_or (l : List Nat) (acc i : Nat) :
    (l.foldl (fun a b => a ||| b) acc).testBit i =
      (acc.testBit i || l.any (fun fl => fl.testBit i)) := by
  induction l generalizing acc with
  | nil => simp
  | cons x xs ih =>
    rw [List.foldl_cons, ih, Nat.testBit_or, List.any_cons, Bool.or_assoc]

/-- The known-flags mask is the OR of the flags the configuration defines. -/
theorem known_flags_eq_foldl (c : build_config) :
    PMAP_CREATE_KNOWN_FLAGS c = (defined_create_flags c).foldl (fun a b => a ||| b) 0 := by
  obtain ⟨x, a, m, r⟩ := c
  cases x <;> cases a <;> cases m <;> cases r <;> rfl

/-- The disposition word written out flag by flag. -/
theorem disposition_eq (s : query_disp → Bool) :
    disposition s =
      (if s query_disp.present then 0x01 else 0) ||| (if s query_disp.reusable then 0x02 else 0) |||
        (if s query_disp.internal then 0x04 else 0) ||| (if s query_disp.altacct then 0x08 else 0) |||
        (if s query_disp.compressed then 0x10 else 0) |||
        (if s query_disp.compressed_altacct then 0x20 else 0) := by
  simp only [disposition, all_query_disp, List.foldl, query_flag, Nat.zero_or,
    PMAP_QUERY_PAGE_PRESENT, PMAP_QUERY_PAGE_REUSABLE, PMAP_QUERY_PAGE_INTERNAL,
    PMAP_QUERY_PAGE_ALTACCT, PMAP_QUERY_PAGE_COMPRESSED, PMAP_QUERY_PAGE_COMPRESSED_ALTACCT]

/-- A flag tests non-zero in a disposition word iff its disposition is in the set. -/
theorem disposition_test (s : query_disp → Bool) (d : query_disp) :
    (disposition s &&& query_flag d ≠ 0) ↔ s d = true := by
  rw [disposition_eq]
  cases d <;>
    simp only [query_flag, PMAP_QUERY_PAGE_PRESENT, PMAP_QUERY_PAGE_REUSABLE,
      PMAP_QUERY_PAGE_INTERNAL, PMAP_QUERY_PAGE_ALTACCT, PMAP_QUERY_PAGE_COMPRESSED,
      PMAP_QUERY_PAGE_COMPRESSED_ALTACCT] <;>
    cases s query_disp.present <;> cases s query_disp.reusable <;>
    cases s query_disp.internal <;> cases s query_disp.altacct <;>
    cases s query_disp.compressed <;> cases s query_disp.compressed_altacct <;> decide

/-- A disposition word lies within the low six bits. -/
theorem disposition_le (s : query_disp → Bool) : disposition s ≤ 0x3F := by
  rw [disposition_eq]
  cases s query_disp.present <;> cases s query_disp.reusable <;>
    cases s query_disp.internal <;> cases s query_disp.altacct <;>
    cases s query_disp.compressed <;> cases s query_disp.compressed_altacct <;> decide

/-- The keys after an enter are the old keys and the entered key. -/
theorem enter_entry_keys (new : mapping_entry) (l : List mapping_entry)
    (k : Nat × Nat) :
    k ∈ (enter_entry new l).map (fun m => (m.pmap, m.va)) ↔
      k = (new.pmap, new.va) ∨ k ∈ l.map (fun m => (m.pmap, m.va)) := by
  induction l with
  | nil => simp [enter_entry]
  | cons m ms ih =>
    by_cases h : m.pmap = new.pmap ∧ m.va = new.va
    · have hk : (m.pmap, m.va) = (new.pmap, new.va) := by rw [h.1, h.2]
      simp only [enter_entry, h, and_self, if_true, List.map_cons, List.mem_cons, hk]
      tauto
    · simp only [enter_entry, h, if_false, List.map_cons, List.mem_cons, ih]
      tauto

/-- An enter keeps the keys distinct. -/
theorem enter_entry_nodup (new : mapping_entry) (l : List mapping_entry)
    (hl : (l.map (fun m => (m.pmap, m.va))).Nodup) :
    ((enter_entry new l).map (fun m => (m.pmap, m.va))).Nodup := by
  induction l with
  | nil => simp [enter_entry]
  | cons m ms ih =>
    rw [List.map_cons, List.nodup_cons] at hl
    by_cases h : m.pmap = new.pmap ∧ m.va = new.va
    · have hk : (new.pmap, new.va) = (m.pmap, m.va) := by rw [h.1, h.2]
      simp only [enter_entry, h, and_self, if_true, List.map_cons, List.nodup_cons, hk]
      exact hl
    · simp only [enter_entry, h, if_false, List.map_cons, List.nodup_cons]
      refine ⟨?_, ih hl.2⟩
      rw [enter_entry_keys]
      rintro (hk | hk)
      · apply h
        have h1 := congrArg Prod.fst hk
        have h2 := congrArg Prod.snd hk
        exact ⟨h1, h2⟩
      · exact hl.1 hk

/-- A protection change keeps the key of an entry. -/
theorem protect_entry_key (prot options : Nat) (m : mapping_entry) :
    ((protect_entry prot options m).pmap, (protect_entry prot options m).va) = (m.pmap, m.va) := by
  unfold protect_entry
  split
  · split <;> rfl
  · rfl

/-- Every reachable state holds at most one entry per virtual address and
address space. -/
theorem reachable_mappings_wf (plat : platform) (sys : pmap_system) (h : reachable plat sys) :
    mappings_wf sys := by
  induction h with
  | init refmod => simp [mappings_wf]
  | @enter sys pol pmap v pn prot fault_type flags wired _ ih =>
    unfold pmap_enter
    split
    · exact ih
    · split
      · exact ih
      · exact enter_entry_nodup _ _ ih
  | @protect sys map s e prot options arg _ ih =>
    unfold mappings_wf at ih ⊢
    have hkeys :
        (pmap_protect_options sys map s e prot options arg).state.mappings.map
            (fun m => (m.pmap, m.va)) = sys.mappings.map (fun m => (m.pmap, m.va)) := by
      simp only [pmap_protect_options, List.map_map]
      apply List.map_congr_left
      intro m _
      simp only [Function.comp]
      split
      · exact protect_entry_key prot options m
      · rfl
    rw [hkeys]
    exact ih
  | set_modify pn _ ih => exact ih
  | @clear_refmod sys pn mask _ ih => exact ih
  | @clear_refmod_range sys pmap start end_ mask options _ ih =>
    unfold mappings_wf at ih ⊢
    unfold pmap_clear_refmod_range_options
    split
    · exact ih
    · exact ih

/-- The shifted page number fits 64 bits when the page number fits 32 bits and
the shift is at most 32. -/
theorem shifted_page_lt (pn ps : Nat) (hpn : pn < 2 ^ 32) (hps : ps ≤ 32) :
    pn * 2 ^ ps < 2 ^ 64 := by
  have h1 : 2 ^ ps ≤ 2 ^ 32 := Nat.pow_le_pow_right (by decide) hps
  have h2 : pn * 2 ^ ps < 2 ^ 32 * 2 ^ 32 :=
    Nat.mul_lt_mul_of_lt_of_le hpn h1 (Nat.pow_pos (by decide))
  have h3 : (2 : Nat) ^ 32 * 2 ^ 32 = 2 ^ 64 := by norm_num
  omega

/-- The page number with an in-page offset added fits 64 bits. -/
theorem shifted_page_add_lt (pn ps off : Nat) (hpn : pn < 2 ^ 32) (hps : ps ≤ 32)
    (hoff : off < 2 ^ ps) : pn * 2 ^ ps + off < 2 ^ 64 := by
  have h1 : 2 ^ ps ≤ 2 ^ 32 := Nat.pow_le_pow_right (by decide) hps
  have h2 : (pn + 1) * 2 ^ ps ≤ 2 ^ 32 * 2 ^ 32 := Nat.mul_le_mul hpn h1
  have h3 : (2 : Nat) ^ 32 * 2 ^ 32 = 2 ^ 64 := by norm_num
  have h4 : (pn + 1) * 2 ^ ps = pn * 2 ^ ps + 2 ^ ps := by ring
  omega

/-- The loop, started at index `page_idx` with `k` pages left and more than `k`
units of fuel, finishes having called `pmap_set_cache_attributes` on the
entries `page_idx`, ..., `page_idx + k - 1` in that order. -/
theorem batch_set_loop_finishes (user_page_list : upl_page_info_array)
    (cache_attr num_pages : Nat) (hn : num_pages < 2 ^ 32) :
    ∀ (k fuel page_idx : Nat) (st : cache_state), page_idx + k = num_pages → k < fuel →
      batch_set_loop user_page_list cache_attr num_pages fuel page_idx st =
        some
          { calls :=
              st.calls ++
                (List.range' page_idx k).map (fun i =>
                  cache_attr_call.set_cache_attributes (user_page_list.entry i).phys_addr
                    cache_attr)
            reads := st.reads ++ List.range' page_idx k
            object := st.object } := by
  intro k
  induction k with
  | zero =>
    intro fuel page_idx st hsum hfuel
    obtain ⟨f, rfl⟩ : ∃ f, fuel = f + 1 := ⟨fuel - 1, by omega⟩
    have hnot : ¬ page_idx < num_pages := by omega
    simp [batch_set_loop, hnot]
  | succ k ih =>
    intro fuel page_idx st hsum hfuel
    obtain ⟨f, rfl⟩ : ∃ f, fuel = f + 1 := ⟨fuel - 1, by omega⟩
    have hlt : page_idx < num_pages := by omega
    have hwrap : to_uint (page_idx + 1) = page_idx + 1 :=
      Nat.mod_eq_of_lt (by omega)
    rw [batch_set_loop, if_pos hlt, hwrap, ih f (page_idx + 1) _ (by omega) (by omega)]
    simp [List.range'_succ]

/-- The loop, started with no more fuel than pages left, does not finish. -/
theorem batch_set_loop_out_of_fuel (user_page_list : upl_page_info_array)
    (cache_attr num_pages : Nat) (hn : num_pages < 2 ^ 32) :
    ∀ (fuel page_idx : Nat) (st : cache_state), page_idx + fuel ≤ num_pages →
      batch_set_loop user_page_list cache_attr num_pages fuel page_idx st = none := by
  intro fuel
  induction fuel with
  | zero =>
    intro page_idx st _
    rfl
  | succ f ih =>
    intro page_idx st hle
    have hlt : page_idx < num_pages := by omega
    have hwrap : to_uint (page_idx + 1) = page_idx + 1 :=
      Nat.mod_eq_of_lt (by omega)
    rw [batch_set_loop, if_pos hlt, hwrap]
    exact ih (page_idx + 1) _ (by omega)

/-- Off ARM, with `batch_pmap_op` true, `num_pages` an `unsigned int` and
enough fuel, the batch macro finishes with one call per entry, in order. -/
theorem batch_macro_loop_result (returns : Nat → Nat → Nat → Bool) (fuel : Nat)
    (object : vm_object) (user_page_list : upl_page_info_array)
    (cache_attr n batch_pmap_op : Nat) (hop : batch_pmap_op ≠ 0) (hn : n < 2 ^ 32)
    (hfuel : n < fuel) :
    PMAP_BATCH_SET_CACHE_ATTR false returns fuel object user_page_list cache_attr n
        batch_pmap_op =
      some
        { calls :=
            (List.range n).map (fun i =>
              cache_attr_call.set_cache_attributes (user_page_list.entry i).phys_addr cache_attr)
          reads := List.range n
          object := { object with set_cache_attr := true } } := by
  have h := batch_set_loop_finishes user_page_list cache_attr n hn n fuel 0
    { calls := [], reads := [], object := object } (by omega) hfuel
  simp [PMAP_BATCH_SET_CACHE_ATTR, hop, h, List.range_eq_range']

/-- On ARM, with `batch_pmap_op` true, the batch macro makes the one batch
call and sets the flag. -/
theorem batch_macro_arm_result (returns : Nat → Nat → Nat → Bool) (fuel : Nat)
    (object : vm_object) (user_page_list : upl_page_info_array)
    (cache_attr n batch_pmap_op : Nat) (hop : batch_pmap_op ≠ 0) :
    PMAP_BATCH_SET_CACHE_ATTR true returns fuel object user_page_list cache_attr n
        batch_pmap_op =
      some
        { calls := [cache_attr_call.batch_set_cache_attributes user_page_list.base n cache_attr]
          reads := []
          object := { object with set_cache_attr := true } } := by
  simp [PMAP_BATCH_SET_CACHE_ATTR, hop]

/-- A word has a non-zero AND with `2 ^ k` iff its bit `k` is set. -/
theorem and_two_pow_ne_zero_iff (w k : Nat) : w &&& 2 ^ k ≠ 0 ↔ w.testBit k = true := by
  constructor
  · intro h
    by_contra hb
    apply h
    apply Nat.eq_of_testBit_eq
    intro i
    rw [Nat.testBit_and, Nat.testBit_two_pow, Nat.zero_testBit]
    by_cases hki : k = i
    · subst hki
      simp [hb]
    · simp [hki]
  · intro hb h0
    have h1 := congrArg (fun n => n.testBit k) h0
    simp [Nat.testBit_and, hb, Nat.testBit_two_pow_self] at h1

/-- Two different powers of two share no bit. -/
theorem two_pow_and_two_pow (a b : Nat) (hab : a ≠ b) : 2 ^ a &&& 2 ^ b = 0 := by
  apply Nat.eq_of_testBit_eq
  intro i
  rw [Nat.testBit_and, Nat.testBit_two_pow, Nat.testBit_two_pow, Nat.zero_testBit]
  by_cases hai : a = i
  · have hbi : ¬ b = i := fun h => hab (hai.trans h.symm)
    simp [hbi]
  · simp [hai]

/-- A bit of an OR of terms over a list is set iff it is set in the start
value or in a term. -/
theorem testBit_foldl_or_terms {α : Type} (f : α → Nat) (l : List α) (acc i : Nat) :
    (l.foldl (fun a d => a ||| f d) acc).testBit i =
      (acc.testBit i || l.any (fun d => (f d).testBit i)) := by
  induction l generalizing acc with
  | nil => simp
  | cons x xs ih =>
    rw [List.foldl_cons, ih, Nat.testBit_or, List.any_cons, Bool.or_assoc]

/-- Each option constant is the power of two at its bit position. -/
theorem option_flag_eq_pow (o : pmap_option) : option_flag o = 2 ^ option_bit o := by
  cases o <;> rfl

/-- Different options have different bit positions. -/
theorem option_bit_injective (o o' : pmap_option) (h : option_bit o = option_bit o') :
    o = o' := by
  cases o <;> cases o' <;> first | rfl | exact absurd h (by decide)

/-- The list of options is complete. -/
theorem mem_all_pmap_options (o : pmap_option) : o ∈ all_pmap_options := by
  cases o <;> decide

/-- Bit `option_bit o` of an options word is set iff `o` is in the set. -/
theorem options_word_testBit (s : pmap_option → Bool) (o : pmap_option) :
    (options_word s).testBit (option_bit o) = s o := by
  unfold options_word
  rw [testBit_foldl_or_terms, Nat.zero_testBit, Bool.false_or]
  cases hso : s o
  · rw [List.any_eq_false]
    intro d _
    cases hsd : s d
    · simp
    · by_cases hbit : option_bit d = option_bit o
      · have hdo := option_bit_injective d o hbit
        rw [hdo, hso] at hsd
        exact Bool.noConfusion hsd
      · simp [option_flag_eq_pow, Nat.testBit_two_pow, hbit]
  · rw [List.any_eq_true]
    exact ⟨o, mem_all_pmap_options o, by simp [hso, option_flag_eq_pow, Nat.testBit_two_pow_self]⟩

/-- An option tests non-zero in an options word iff it is in the set. -/
theorem options_word_test (s : pmap_option → Bool) (o : pmap_option) :
    (options_word s &&& option_flag o ≠ 0) ↔ s o = true := by
  rw [option_flag_eq_pow, and_two_pow_ne_zero_iff, options_word_testBit]

/-! ## The enter macros: theorems -/

/-- C1: for a page not flagged in error, `PMAP_ENTER` makes exactly one
external call, of `pmap_enter_options`, with the page's physical page number,
the caller's virtual address, protection, fault type, flags and wired value
unchanged and a `NULL` arg; the options word has `PMAP_OPTIONS_INTERNAL` set
iff the object is internal, `PMAP_OPTIONS_REUSABLE` set iff the page is
reusable or the object is all-reusable, and no other bit; `result` receives
the value the call returns. -/
theorem PMAP_ENTER_calls_enter_options_once (env : vm_env)
    (pmap_enter_options : enter_args → kern_return_t) (pmap virtual_address : Nat)
    (page : vm_page) (protection fault_type flags wired : Nat) (result0 : kern_return_t)
    (hok : env.VMP_ERROR_GET page = 0) :
    ∃ options : Nat,
      PMAP_ENTER env pmap_enter_options pmap virtual_address page protection fault_type flags
          wired result0 =
        { calls :=
            [pmap_call.enter_options
              ⟨pmap, virtual_address, env.VM_PAGE_GET_PHYS_PAGE page, protection, fault_type,
                flags, wired, options, NULL⟩]
          result :=
            pmap_enter_options
              ⟨pmap, virtual_address, env.VM_PAGE_GET_PHYS_PAGE page, protection, fault_type,
                flags, wired, options, NULL⟩
          panicked := false } ∧
      (options &&& PMAP_OPTIONS_INTERNAL ≠ 0 ↔ (env.VM_PAGE_OBJECT page).internal = true) ∧
      (options &&& PMAP_OPTIONS_REUSABLE ≠ 0 ↔
        (page.vmp_reusable = true ∨ (env.VM_PAGE_OBJECT page).all_reusable = true)) ∧
      (∀ i, options.testBit i = true → i = 3 ∨ i = 4) ∧
      options &&& (PMAP_OPTIONS_INTERNAL ||| PMAP_OPTIONS_REUSABLE) = options := by
  refine ⟨enter_extra_options env page, ?_, ?_, ?_, enter_extra_options_bits env page, ?_⟩
  · have hmod : to_uint (enter_extra_options env page) = enter_extra_options env page :=
      Nat.mod_eq_of_lt (enter_extra_options_lt env page)
    simp [PMAP_ENTER, PMAP_ENTER_CHECK_eq, hok, hmod]
  · rw [enter_extra_options_cases]
    unfold PMAP_OPTIONS_INTERNAL
    cases (env.VM_PAGE_OBJECT page).internal <;> cases page.vmp_reusable <;>
      cases (env.VM_PAGE_OBJECT page).all_reusable <;> decide
  · rw [enter_extra_options_cases]
    unfold PMAP_OPTIONS_REUSABLE
    cases (env.VM_PAGE_OBJECT page).internal <;> cases page.vmp_reusable <;>
      cases (env.VM_PAGE_OBJECT page).all_reusable <;> decide
  · rw [enter_extra_options_cases]
    unfold PMAP_OPTIONS_INTERNAL PMAP_OPTIONS_REUSABLE
    cases (env.VM_PAGE_OBJECT page).internal <;> cases page.vmp_reusable <;>
      cases (env.VM_PAGE_OBJECT page).all_reusable <;> decide

/-- Instance of the `PMAP_ENTER` contract: a reusable page of an internal object, entered at `0x10000` in address space `1`. -/
theorem PMAP_ENTER_calls_enter_options_once_witness :
    example_env.VMP_ERROR_GET example_page = 0 ∧
    ∃ options : Nat,
      PMAP_ENTER example_env example_enter 1 0x10000 example_page 3 1 0 0 (-1) =
        { calls :=
            [pmap_call.enter_options
              ⟨1, 0x10000, example_env.VM_PAGE_GET_PHYS_PAGE example_page, 3, 1, 0, 0,
                options, NULL⟩]
          result :=
            example_enter
              ⟨1, 0x10000, example_env.VM_PAGE_GET_PHYS_PAGE example_page, 3, 1, 0, 0,
                options, NULL⟩
          panicked := false } ∧
      (options &&& PMAP_OPTIONS_INTERNAL ≠ 0 ↔
        (example_env.VM_PAGE_OBJECT example_page).internal = true) ∧
      (options &&& PMAP_OPTIONS_REUSABLE ≠ 0 ↔
        (example_page.vmp_reusable = true ∨
          (example_env.VM_PAGE_OBJECT example_page).all_reusable = true)) ∧
      (∀ i, options.testBit i = true → i = 3 ∨ i = 4) ∧
      options &&& (PMAP_OPTIONS_INTERNAL ||| PMAP_OPTIONS_REUSABLE) = options :=
  ⟨by decide,
    PMAP_ENTER_calls_enter_options_once example_env example_enter 1 0x10000 example_page 3 1 0 0
      (-1) (by decide)⟩

/-- C2: for a page not flagged in error and a caller's options word `o`,
`PMAP_ENTER_OPTIONS` passes `o | e` to `pmap_enter_options_addr`, `e` being
the options word `PMAP_ENTER` passes for the same page. Every bit set in `o`
is set in the word passed, every bit other than bits 3 and 4
(`PMAP_OPTIONS_INTERNAL`, `PMAP_OPTIONS_REUSABLE`) has the value it has in
`o`, in particular `PMAP_OPTIONS_NOWAIT` and `PMAP_OPTIONS_NOENTER`, and with
`o = 0` the word passed is the one `PMAP_ENTER` passes. -/
theorem PMAP_ENTER_OPTIONS_ors_caller_options (env : vm_env)
    (pmap_enter_options_addr pmap_enter_options : enter_args → kern_return_t)
    (pmap virtual_address fault_phys_offset : Nat) (page : vm_page)
    (protection fault_type flags wired o : Nat) (result0 : kern_return_t)
    (hok : env.VMP_ERROR_GET page = 0) (ho : o < 2 ^ 32) :
    ∃ a b a0 : enter_args,
      (PMAP_ENTER_OPTIONS env pmap_enter_options_addr pmap virtual_address fault_phys_offset
          page protection fault_type flags wired o result0).calls =
        [pmap_call.enter_options_addr a] ∧
      (PMAP_ENTER env pmap_enter_options pmap virtual_address page protection fault_type flags
          wired result0).calls = [pmap_call.enter_options b] ∧
      (PMAP_ENTER_OPTIONS env pmap_enter_options_addr pmap virtual_address fault_phys_offset
          page protection fault_type flags wired 0 result0).calls =
        [pmap_call.enter_options_addr a0] ∧
      a.options = o ||| b.options ∧
      (∀ i, o.testBit i = true → a.options.testBit i = true) ∧
      (∀ i, i ≠ 3 → i ≠ 4 → a.options.testBit i = o.testBit i) ∧
      a.options &&& PMAP_OPTIONS_NOWAIT = o &&& PMAP_OPTIONS_NOWAIT ∧
      a.options &&& PMAP_OPTIONS_NOENTER = o &&& PMAP_OPTIONS_NOENTER ∧
      a0.options = b.options := by
  have he := to_uint_enter_extra_options env page
  have hoe := to_uint_or_enter_extra_options env page o ho
  have h0e : to_uint (0 ||| enter_extra_options env page) = enter_extra_options env page := by
    rw [Nat.zero_or]; exact he
  refine ⟨⟨pmap, virtual_address, enter_phys_addr env page fault_phys_offset, protection,
      fault_type, flags, wired, o ||| enter_extra_options env page, NULL⟩,
    ⟨pmap, virtual_address, env.VM_PAGE_GET_PHYS_PAGE page, protection, fault_type, flags,
      wired, enter_extra_options env page, NULL⟩,
    ⟨pmap, virtual_address, enter_phys_addr env page fault_phys_offset, protection,
      fault_type, flags, wired, enter_extra_options env page, NULL⟩, ?_, ?_, ?_, rfl, ?_, ?_,
    ?_, ?_, rfl⟩
  · simp [PMAP_ENTER_OPTIONS, PMAP_ENTER_CHECK_eq, hok, hoe]
  · simp [PMAP_ENTER, PMAP_ENTER_CHECK_eq, hok, he]
  · simp only [PMAP_ENTER_OPTIONS, PMAP_ENTER_CHECK_eq, hok, h0e]
    simp
  · intro i hi
    show (o ||| enter_extra_options env page).testBit i = true
    rw [Nat.testBit_or, hi]
    rfl
  · intro i h3 h4
    show (o ||| enter_extra_options env page).testBit i = o.testBit i
    rw [Nat.testBit_or]
    cases hb : (enter_extra_options env page).testBit i
    · simp
    · rcases enter_extra_options_bits env page i hb with h | h
      · exact absurd h h3
      · exact absurd h h4
  · refine or_and_of_bits_disjoint o _ _ ?_
    intro i hi
    rcases enter_extra_options_bits env page i hi with h | h <;> subst h <;> decide
  · refine or_and_of_bits_disjoint o _ _ ?_
    intro i hi
    rcases enter_extra_options_bits env page i hi with h | h <;> subst h <;> decide

/-- Instance of the `PMAP_ENTER_OPTIONS` contract: the caller passes `PMAP_OPTIONS_NOWAIT` for a reusable page of an internal object. -/
theorem PMAP_ENTER_OPTIONS_ors_caller_options_witness :
    example_env.VMP_ERROR_GET example_page = 0 ∧ PMAP_OPTIONS_NOWAIT < 2 ^ 32 ∧
    ∃ a b a0 : enter_args,
      (PMAP_ENTER_OPTIONS example_env example_enter 1 0x10000 0x20 example_page 3 1 0 0
          PMAP_OPTIONS_NOWAIT (-1)).calls = [pmap_call.enter_options_addr a] ∧
      (PMAP_ENTER example_env example_enter 1 0x10000 example_page 3 1 0 0 (-1)).calls =
        [pmap_call.enter_options b] ∧
      (PMAP_ENTER_OPTIONS example_env example_enter 1 0x10000 0x20 example_page 3 1 0 0 0
          (-1)).calls = [pmap_call.enter_options_addr a0] ∧
      a.options = PMAP_OPTIONS_NOWAIT ||| b.options ∧
      (∀ i, PMAP_OPTIONS_NOWAIT.testBit i = true → a.options.testBit i = true) ∧
      (∀ i, i ≠ 3 → i ≠ 4 → a.options.testBit i = PMAP_OPTIONS_NOWAIT.testBit i) ∧
      a.options &&& PMAP_OPTIONS_NOWAIT = PMAP_OPTIONS_NOWAIT &&& PMAP_OPTIONS_NOWAIT ∧
      a.options &&& PMAP_OPTIONS_NOENTER = PMAP_OPTIONS_NOWAIT &&& PMAP_OPTIONS_NOENTER ∧
      a0.options = b.options :=
  ⟨by decide, by decide,
    PMAP_ENTER_OPTIONS_ors_caller_options example_env example_enter example_enter 1 0x10000
      0x20 example_page 3 1 0 0 PMAP_OPTIONS_NOWAIT (-1) (by decide) (by decide)⟩

/-- C3: when the page's error indication is set, `PMAP_ENTER` and
`PMAP_ENTER_OPTIONS` panic in `PMAP_ENTER_CHECK` having made no external call
and leaving `result` as it was; when it is clear the check passes, there is
no panic and exactly one enter call is made. An enter call is made iff the
page is not flagged in error. -/
theorem PMAP_ENTER_CHECK_guards_enter (env : vm_env)
    (pmap_enter_options pmap_enter_options_addr : enter_args → kern_return_t)
    (pmap virtual_address fault_phys_offset : Nat) (page : vm_page)
    (protection fault_type flags wired options : Nat) (result0 : kern_return_t) :
    (env.VMP_ERROR_GET page ≠ 0 →
      PMAP_ENTER_CHECK env pmap page = false ∧
      PMAP_ENTER env pmap_enter_options pmap virtual_address page protection fault_type flags
          wired result0 = { calls := [], result := result0, panicked := true } ∧
      PMAP_ENTER_OPTIONS env pmap_enter_options_addr pmap virtual_address fault_phys_offset
          page protection fault_type flags wired options result0 =
        { calls := [], result := result0, panicked := true }) ∧
    (env.VMP_ERROR_GET page = 0 →
      PMAP_ENTER_CHECK env pmap page = true ∧
      (PMAP_ENTER env pmap_enter_options pmap virtual_address page protection fault_type flags
          wired result0).panicked = false ∧
      (∃ a, (PMAP_ENTER env pmap_enter_options pmap virtual_address page protection fault_type
          flags wired result0).calls = [pmap_call.enter_options a]) ∧
      (PMAP_ENTER_OPTIONS env pmap_enter_options_addr pmap virtual_address fault_phys_offset
          page protection fault_type flags wired options result0).panicked = false ∧
      (∃ a, (PMAP_ENTER_OPTIONS env pmap_enter_options_addr pmap virtual_address
          fault_phys_offset page protection fault_type flags wired options result0).calls =
        [pmap_call.enter_options_addr a])) ∧
    ((PMAP_ENTER env pmap_enter_options pmap virtual_address page protection fault_type flags
        wired result0).calls ≠ [] ↔ env.VMP_ERROR_GET page = 0) ∧
    ((PMAP_ENTER_OPTIONS env pmap_enter_options_addr pmap virtual_address fault_phys_offset
        page protection fault_type flags wired options result0).calls ≠ [] ↔
      env.VMP_ERROR_GET page = 0) := by
  by_cases h : env.VMP_ERROR_GET page = 0
  · simp [PMAP_ENTER, PMAP_ENTER_OPTIONS, PMAP_ENTER_CHECK_eq, h]
  · simp [PMAP_ENTER, PMAP_ENTER_OPTIONS, PMAP_ENTER_CHECK_eq, h]

/-- Instance of the enter check: the page flagged in error makes `PMAP_ENTER` panic without a call; the sound page does not. -/
theorem PMAP_ENTER_CHECK_guards_enter_witness :
    (example_env.VMP_ERROR_GET example_bad_page ≠ 0 ∧
      PMAP_ENTER example_env example_enter 1 0x10000 example_bad_page 3 1 0 0 (-1) =
        { calls := [], result := -1, panicked := true }) ∧
    (example_env.VMP_ERROR_GET example_page = 0 ∧
      (PMAP_ENTER example_env example_enter 1 0x10000 example_page 3 1 0 0 (-1)).panicked =
        false) :=
  ⟨⟨by decide,
      ((PMAP_ENTER_CHECK_guards_enter example_env example_enter example_enter 1 0x10000 0x20
        example_bad_page 3 1 0 0 0 (-1)).1 (by decide)).2.1⟩,
    ⟨by decide,
      ((PMAP_ENTER_CHECK_guards_enter example_env example_enter example_enter 1 0x10000 0x20
        example_page 3 1 0 0 0 (-1)).2.1 (by decide)).2.1⟩⟩

/-! ## Creation flags: theorems -/

/-- C4: in every build configuration `PMAP_CREATE_KNOWN_FLAGS` is the bitwise
OR of the creation flags the configuration defines: `0x3` on x86_64, elsewhere
`0x1` plus `0x4` iff arm64e, `0x8` iff mixed page size, `0x20` iff Rosetta,
with `PMAP_CREATE_STAGE2`, `PMAP_CREATE_X86_64` and the flag of every disabled
feature equal to `0`. An `unsigned int` flags word passes the known-flags check
iff each of its set bits belongs to a flag the configuration defines; the bit
of a disabled feature is rejected. -/
theorem PMAP_CREATE_KNOWN_FLAGS_is_or_of_defined (c : build_config) (f : Nat)
    (hf : f < 2 ^ 32) :
    PMAP_CREATE_KNOWN_FLAGS c =
        (if c.x86_64 then 0x3
          else 0x1 + (if c.arm64e then 0x4 else 0) + (if c.mixed_page_size then 0x8 else 0) +
            (if c.rosetta then 0x20 else 0)) ∧
      PMAP_CREATE_KNOWN_FLAGS c = (defined_create_flags c).foldl (fun a b => a ||| b) 0 ∧
      PMAP_CREATE_STAGE2 = 0 ∧ PMAP_CREATE_X86_64 = 0 ∧
      (c.arm64e = false → PMAP_CREATE_DISABLE_JOP c = 0) ∧
      (c.mixed_page_size = false → PMAP_CREATE_FORCE_4K_PAGES c = 0) ∧
      (c.rosetta = false → PMAP_CREATE_ROSETTA c = 0) ∧
      (known_flags_check c f = true ↔
        ∀ i, f.testBit i = true → ∃ fl ∈ defined_create_flags c, fl.testBit i = true) ∧
      (c.x86_64 = false → known_flags_check c 0x2 = false) ∧
      ((c.x86_64 = true ∨ c.arm64e = false) → known_flags_check c 0x4 = false) ∧
      ((c.x86_64 = true ∨ c.mixed_page_size = false) → known_flags_check c 0x8 = false) ∧
      ((c.x86_64 = true ∨ c.rosetta = false) → known_flags_check c 0x20 = false) := by
  refine ⟨?_, known_flags_eq_foldl c, rfl, rfl, ?_, ?_, ?_, ?_, ?_, ?_, ?_, ?_⟩
  · obtain ⟨x, a, m, r⟩ := c
    cases x <;> cases a <;> cases m <;> cases r <;> rfl
  · intro h; simp [PMAP_CREATE_DISABLE_JOP, h]
  · intro h; simp [PMAP_CREATE_FORCE_4K_PAGES, h]
  · intro h; simp [PMAP_CREATE_ROSETTA, h]
  · unfold known_flags_check
    rw [beq_iff_eq, and_not_uint_eq_zero_iff f _ hf]
    have hbit : ∀ i, (PMAP_CREATE_KNOWN_FLAGS c).testBit i = true ↔
        ∃ fl ∈ defined_create_flags c, fl.testBit i = true := by
      intro i
      rw [known_flags_eq_foldl, testBit_foldl_or]
      simp
    constructor
    · intro h i hi
      exact (hbit i).1 (h i hi)
    · intro h i hi
      exact (hbit i).2 (h i hi)
  · obtain ⟨x, a, m, r⟩ := c
    cases x <;> cases a <;> cases m <;> cases r <;> decide
  · obtain ⟨x, a, m, r⟩ := c
    cases x <;> cases a <;> cases m <;> cases r <;> decide
  · obtain ⟨x, a, m, r⟩ := c
    cases x <;> cases a <;> cases m <;> cases r <;> decide
  · obtain ⟨x, a, m, r⟩ := c
    cases x <;> cases a <;> cases m <;> cases r <;> decide

/-- Instance of the known-flags mask: arm64e with mixed page sizes and without Rosetta has mask `0xD`, accepts `0x9` and rejects `0x20`. -/
theorem PMAP_CREATE_KNOWN_FLAGS_is_or_of_defined_witness :
    (0x9 : Nat) < 2 ^ 32 ∧
    PMAP_CREATE_KNOWN_FLAGS ⟨false, true, true, false⟩ = 0xD ∧
    known_flags_check ⟨false, true, true, false⟩ 0x9 = true ∧
    known_flags_check ⟨false, true, true, false⟩ 0x20 = false :=
  ⟨by decide,
    (PMAP_CREATE_KNOWN_FLAGS_is_or_of_defined ⟨false, true, true, false⟩ 0x9 (by decide)).1,
    by decide,
    (PMAP_CREATE_KNOWN_FLAGS_is_or_of_defined ⟨false, true, true, false⟩ 0x9
      (by decide)).2.2.2.2.2.2.2.2.2.2.2 (Or.inr rfl)⟩

/-! ## Reference/modify range clear: theorems -/

/-- C5: if `pmap_clear_refmod_range_options` returns `false`, nothing has been
modified: `pmap_get_refmod` of every physical page, mapped in the range or
not, is what it was before the call, and so are the mappings. -/
theorem pmap_clear_refmod_range_options_failure_changes_nothing (plat : platform)
    (sys : pmap_system) (pmap start end_ mask options : Nat)
    (hfail : (pmap_clear_refmod_range_options plat sys pmap start end_ mask options).2 = false) :
    (∀ pn,
      pmap_get_refmod (pmap_clear_refmod_range_options plat sys pmap start end_ mask options).1
          pn = pmap_get_refmod sys pn) ∧
    (pmap_clear_refmod_range_options plat sys pmap start end_ mask options).1.mappings =
      sys.mappings := by
  unfold pmap_clear_refmod_range_options at hfail ⊢
  cases hp : plat.range_refmod_clear
  · simp
  · rw [hp] at hfail
    simp at hfail

/-- Instance of the range clear on a platform without it: the call fails and every page keeps its state. -/
theorem pmap_clear_refmod_range_options_failure_changes_nothing_witness :
    (pmap_clear_refmod_range_options ⟨false⟩ example_sys 1 0x4000 0xC000 3 0).2 = false ∧
    (∀ pn,
      pmap_get_refmod (pmap_clear_refmod_range_options ⟨false⟩ example_sys 1 0x4000 0xC000 3 0).1
          pn = pmap_get_refmod example_sys pn) ∧
    (pmap_clear_refmod_range_options ⟨false⟩ example_sys 1 0x4000 0xC000 3 0).1.mappings =
      example_sys.mappings :=
  ⟨rfl,
    pmap_clear_refmod_range_options_failure_changes_nothing ⟨false⟩ example_sys 1 0x4000 0xC000
      3 0 rfl⟩

/-! ## Protect: theorems -/

/-- C6, as stated, fails: `pmap_protect` and `pmap_protect_options` are
declared `void`. Asking for read-write on the read-only mapping of space `1`
at `0x4000`, without the immediate option, returns no code at all, so no
Denied code. -/
theorem pmap_protect_returns_no_code :
    grants_new_right 1 3 = true ∧
    return_type pmap_op.pmap_protect = c_type.void ∧
    return_type pmap_op.pmap_protect_options = c_type.void ∧
    (¬ ∃ denied : kern_return_t,
      (pmap_protect example_sys 1 0x4000 0x8000 3).ret = some denied) ∧
    (¬ ∃ denied : kern_return_t,
      (pmap_protect_options example_sys 1 0x4000 0x8000 3 0 NULL).ret = some denied) := by
  refine ⟨by decide, rfl, rfl, ?_, ?_⟩
  · rintro ⟨d, hd⟩
    exact Option.noConfusion hd
  · rintro ⟨d, hd⟩
    exact Option.noConfusion hd

/-- C6, amended: Protect without `PMAP_OPTIONS_PROTECT_IMMEDIATE` returns
nothing and, entry by entry, keeps address space, virtual address and page,
never adds an access right, and leaves unchanged every entry to which the new
protection would grant a right it lacks. The same holds of `pmap_protect`. -/
theorem pmap_protect_without_immediate_never_widens (sys : pmap_system)
    (map s e prot options arg : Nat)
    (hno : options &&& PMAP_OPTIONS_PROTECT_IMMEDIATE = 0) :
    (pmap_protect_options sys map s e prot options arg).ret = none ∧
    (pmap_protect sys map s e prot).ret = none ∧
    List.Forall₂
      (fun m m' =>
        m'.pmap = m.pmap ∧ m'.va = m.va ∧ m'.pn = m.pn ∧
        m'.prot ||| m.prot = m.prot ∧
        (grants_new_right m.prot prot = true → m' = m))
      sys.mappings (pmap_protect_options sys map s e prot options arg).state.mappings ∧
    List.Forall₂
      (fun m m' =>
        m'.pmap = m.pmap ∧ m'.va = m.va ∧ m'.pn = m.pn ∧
        m'.prot ||| m.prot = m.prot ∧
        (grants_new_right m.prot prot = true → m' = m))
      sys.mappings (pmap_protect sys map s e prot).state.mappings := by
  have key : ∀ (o : Nat), o &&& PMAP_OPTIONS_PROTECT_IMMEDIATE = 0 →
      List.Forall₂
        (fun m m' =>
          m'.pmap = m.pmap ∧ m'.va = m.va ∧ m'.pn = m.pn ∧
          m'.prot ||| m.prot = m.prot ∧
          (grants_new_right m.prot prot = true → m' = m))
        sys.mappings (pmap_protect_options sys map s e prot o arg).state.mappings := by
    intro o ho
    simp only [pmap_protect_options]
    rw [List.forall₂_map_right_iff]
    apply List.forall₂_same.2
    intro m _
    by_cases hin : m.pmap = map ∧ s ≤ m.va ∧ m.va < e
    · rw [if_pos hin]
      unfold protect_entry
      cases hg : grants_new_right m.prot prot
      · have hsub : prot ||| m.prot = m.prot := by
          unfold grants_new_right at hg
          simpa using hg
        simp [hsub]
      · simp [ho]
    · rw [if_neg hin]
      simp
  refine ⟨rfl, rfl, key options hno, ?_⟩
  have h0 := key 0 (by decide)
  simpa [pmap_protect, pmap_protect_options] using h0

/-- Instance of Protect without the immediate option: read-write asked over the read-only mapping of space `1` at `0x4000`. -/
theorem pmap_protect_without_immediate_never_widens_witness :
    (0 : Nat) &&& PMAP_OPTIONS_PROTECT_IMMEDIATE = 0 ∧
    (pmap_protect_options example_sys 1 0x4000 0x8000 3 0 NULL).ret = none ∧
    (pmap_protect example_sys 1 0x4000 0x8000 3).ret = none ∧
    List.Forall₂
      (fun m m' =>
        m'.pmap = m.pmap ∧ m'.va = m.va ∧ m'.pn = m.pn ∧
        m'.prot ||| m.prot = m.prot ∧
        (grants_new_right m.prot 3 = true → m' = m))
      example_sys.mappings
      (pmap_protect_options example_sys 1 0x4000 0x8000 3 0 NULL).state.mappings ∧
    List.Forall₂
      (fun m m' =>
        m'.pmap = m.pmap ∧ m'.va = m.va ∧ m'.pn = m.pn ∧
        m'.prot ||| m.prot = m.prot ∧
        (grants_new_right m.prot 3 = true → m' = m))
      example_sys.mappings (pmap_protect example_sys 1 0x4000 0x8000 3).state.mappings :=
  ⟨by decide,
    pmap_protect_without_immediate_never_widens example_sys 1 0x4000 0x8000 3 0 NULL
      (by decide)⟩

/-! ## Declared return types: theorems -/

/-- C7, as stated, fails: `pmap_remove`, one of the mutating operations, is
declared `void`, so not every mutating operation returns a result code. -/
theorem mutating_ops_not_all_return_code :
    pmap_op.pmap_remove ∈ mutating_ops ∧
    return_type pmap_op.pmap_remove = c_type.void ∧
    ¬ ∀ op ∈ mutating_ops, return_type op = c_type.kern_return_t := by
  refine ⟨by decide, rfl, ?_⟩
  intro h
  have h1 := h pmap_op.pmap_remove (by decide)
  exact c_type.noConfusion h1

/-- C7, amended: among the mutating operations, enter, nest and unnest are
declared to return a `kern_return_t` to their caller, and remove,
remove_options, protect, protect_options, change_wiring, trim, reference and
destroy are declared `void`. -/
theorem mutating_ops_return_types :
    (∀ op ∈ mutating_ops,
      (return_type op = c_type.kern_return_t ↔
        op ∈ [pmap_op.pmap_enter, pmap_op.pmap_nest, pmap_op.pmap_unnest])) ∧
    (∀ op ∈ mutating_ops,
      (return_type op = c_type.void ↔
        op ∈ [pmap_op.pmap_remove, pmap_op.pmap_remove_options, pmap_op.pmap_protect,
          pmap_op.pmap_protect_options, pmap_op.pmap_change_wiring, pmap_op.pmap_trim,
          pmap_op.pmap_reference, pmap_op.pmap_destroy])) := by
  constructor <;> decide

/-! ## Reference/modify clear: theorems -/

/-- C9: the six disposition flags are `0x01`, `0x02`, `0x04`, `0x08`, `0x10`
and `0x20`; each is a single bit, two different flags share no bit, together
they are `0x3F`; a disposition word lies within `0x3F`, a flag tests non-zero
in the word of a set iff the disposition is in the set, and two sets with the
same word are the same set. -/
theorem query_page_flags_encode_subsets :
    all_query_disp.map query_flag = [0x01, 0x02, 0x04, 0x08, 0x10, 0x20] ∧
    (∀ d, ∃ k, query_flag d = 2 ^ k) ∧
    (∀ d d', d ≠ d' → query_flag d &&& query_flag d' = 0) ∧
    (∀ d, d ∈ all_query_disp) ∧
    disposition (fun _ => true) = 0x3F ∧
    (∀ s, disposition s ≤ 0x3F) ∧
    (∀ s d, (disposition s &&& query_flag d ≠ 0) ↔ s d = true) ∧
    (∀ s t, disposition s = disposition t → s = t) := by
  refine ⟨rfl, ?_, ?_, ?_, rfl, disposition_le, disposition_test, ?_⟩
  · intro d
    cases d
    · exact ⟨0, rfl⟩
    · exact ⟨1, rfl⟩
    · exact ⟨2, rfl⟩
    · exact ⟨3, rfl⟩
    · exact ⟨4, rfl⟩
    · exact ⟨5, rfl⟩
  · intro d d' h
    cases d <;> cases d' <;> first | rfl | exact absurd rfl h
  · intro d
    cases d <;> decide
  · intro s t h
    funext d
    have hs := disposition_test s d
    have ht := disposition_test t d
    rw [h] at hs
    have hiff : s d = true ↔ t d = true := hs.symm.trans ht
    cases hsd : s d <;> cases htd : t d <;> simp_all

/-! ## Enter: theorems -/

/-- C11: for a page not flagged in error, `PMAP_ENTER_OPTIONS` passes to
`pmap_enter_options_addr` the address obtained by widening the page number to
`pmap_paddr_t`, shifting it left by `PAGE_SHIFT` and adding
`fault_phys_offset`. With a 64-bit `pmap_paddr_t`, a 32-bit page number and a
`PAGE_SHIFT` of at most 32, the shift loses no bit: it is the page number
times `2 ^ PAGE_SHIFT`. For an offset below the page size the address shifted
right by `PAGE_SHIFT` is the page number and its remainder modulo the page
size is the offset. -/
theorem PMAP_ENTER_OPTIONS_phys_addr (env : vm_env)
    (pmap_enter_options_addr : enter_args → kern_return_t)
    (pmap virtual_address fault_phys_offset : Nat) (page : vm_page)
    (protection fault_type flags wired options : Nat) (result0 : kern_return_t)
    (hok : env.VMP_ERROR_GET page = 0) (hbits : env.paddr_bits = 64)
    (hpn : env.VM_PAGE_GET_PHYS_PAGE page < 2 ^ 32) (hps : env.PAGE_SHIFT ≤ 32) :
    ∃ a : enter_args,
      (PMAP_ENTER_OPTIONS env pmap_enter_options_addr pmap virtual_address fault_phys_offset
          page protection fault_type flags wired options result0).calls =
        [pmap_call.enter_options_addr a] ∧
      a.pn =
        (((env.VM_PAGE_GET_PHYS_PAGE page % 2 ^ 64) <<< env.PAGE_SHIFT) % 2 ^ 64 +
          fault_phys_offset) % 2 ^ 64 ∧
      ((env.VM_PAGE_GET_PHYS_PAGE page % 2 ^ 64) <<< env.PAGE_SHIFT) % 2 ^ 64 =
        env.VM_PAGE_GET_PHYS_PAGE page * 2 ^ env.PAGE_SHIFT ∧
      (fault_phys_offset < 2 ^ env.PAGE_SHIFT →
        a.pn = env.VM_PAGE_GET_PHYS_PAGE page * 2 ^ env.PAGE_SHIFT + fault_phys_offset ∧
        a.pn >>> env.PAGE_SHIFT = env.VM_PAGE_GET_PHYS_PAGE page ∧
        a.pn % 2 ^ env.PAGE_SHIFT = fault_phys_offset) := by
  have hw : env.VM_PAGE_GET_PHYS_PAGE page % 2 ^ 64 = env.VM_PAGE_GET_PHYS_PAGE page :=
    Nat.mod_eq_of_lt (lt_trans hpn (by decide))
  have hsh : ((env.VM_PAGE_GET_PHYS_PAGE page % 2 ^ 64) <<< env.PAGE_SHIFT) % 2 ^ 64 =
      env.VM_PAGE_GET_PHYS_PAGE page * 2 ^ env.PAGE_SHIFT := by
    rw [hw, Nat.shiftLeft_eq]
    exact Nat.mod_eq_of_lt (shifted_page_lt _ _ hpn hps)
  refine ⟨⟨pmap, virtual_address, enter_phys_addr env page fault_phys_offset, protection,
      fault_type, flags, wired,
      to_uint (options ||| enter_extra_options env page), NULL⟩, ?_, ?_, hsh, ?_⟩
  · simp [PMAP_ENTER_OPTIONS, PMAP_ENTER_CHECK_eq, hok]
  · simp only [enter_phys_addr, hbits]
  · intro hoff
    have hpa : enter_phys_addr env page fault_phys_offset =
        env.VM_PAGE_GET_PHYS_PAGE page * 2 ^ env.PAGE_SHIFT + fault_phys_offset := by
      simp only [enter_phys_addr, hbits]
      rw [hsh]
      exact Nat.mod_eq_of_lt (shifted_page_add_lt _ _ _ hpn hps hoff)
    have hpos : 0 < 2 ^ env.PAGE_SHIFT := Nat.pow_pos (by decide)
    refine ⟨hpa, ?_, ?_⟩
    · show enter_phys_addr env page fault_phys_offset >>> env.PAGE_SHIFT = _
      rw [hpa, Nat.shiftRight_eq_div_pow, Nat.add_comm, Nat.add_mul_div_right _ _ hpos,
        Nat.div_eq_of_lt hoff, Nat.zero_add]
    · show enter_phys_addr env page fault_phys_offset % 2 ^ env.PAGE_SHIFT = _
      rw [hpa, Nat.add_comm, Nat.add_mul_mod_self_right, Nat.mod_eq_of_lt hoff]

/-- Instance of the physical address: page number `0x41` with 16 KiB pages
and offset `0x20`. -/
theorem PMAP_ENTER_OPTIONS_phys_addr_witness :
    example_env.VMP_ERROR_GET example_page = 0 ∧ example_env.paddr_bits = 64 ∧
    example_env.VM_PAGE_GET_PHYS_PAGE example_page < 2 ^ 32 ∧ example_env.PAGE_SHIFT ≤ 32 ∧
    ∃ a : enter_args,
      (PMAP_ENTER_OPTIONS example_env example_enter 1 0x10000 0x20 example_page 3 1 0 0 0
          (-1)).calls = [pmap_call.enter_options_addr a] ∧
      a.pn =
        (((example_env.VM_PAGE_GET_PHYS_PAGE example_page % 2 ^ 64) <<<
            example_env.PAGE_SHIFT) % 2 ^ 64 + 0x20) % 2 ^ 64 ∧
      ((example_env.VM_PAGE_GET_PHYS_PAGE example_page % 2 ^ 64) <<< example_env.PAGE_SHIFT) %
          2 ^ 64 =
        example_env.VM_PAGE_GET_PHYS_PAGE example_page * 2 ^ example_env.PAGE_SHIFT ∧
      (0x20 < 2 ^ example_env.PAGE_SHIFT →
        a.pn = example_env.VM_PAGE_GET_PHYS_PAGE example_page * 2 ^ example_env.PAGE_SHIFT +
          0x20 ∧
        a.pn >>> example_env.PAGE_SHIFT = example_env.VM_PAGE_GET_PHYS_PAGE example_page ∧
        a.pn % 2 ^ example_env.PAGE_SHIFT = 0x20) :=
  ⟨by decide, rfl, by decide, by decide,
    PMAP_ENTER_OPTIONS_phys_addr example_env example_enter 1 0x10000 0x20 example_page 3 1 0 0 0
      (-1) (by decide) rfl (by decide) (by decide)⟩

/-! ## The cache-attribute macros: theorems -/

/-- C12: in the variant of `PMAP_BATCH_SET_CACHE_ATTR` for machines other
than ARM, with `batch_pmap_op` true and `num_pages = n` an `unsigned int`,
the loop terminates (any fuel above `n` suffices, no fuel up to `n` does),
having called `pmap_set_cache_attributes` once for each index `0`, ..., `n - 1`
in increasing order with `user_page_list[i].phys_addr` and `cache_attr`,
having read exactly those entries, and `object->set_cache_attr` is then
`TRUE`; for `n = 0` no call is made and the flag is still set. -/
theorem PMAP_BATCH_SET_CACHE_ATTR_loop (pmap_batch_set_cache_attributes : Nat → Nat → Nat → Bool)
    (fuel : Nat) (object : vm_object) (user_page_list : upl_page_info_array)
    (cache_attr n batch_pmap_op : Nat) (hop : batch_pmap_op ≠ 0) (hn : n < 2 ^ 32)
    (hfuel : n < fuel) :
    PMAP_BATCH_SET_CACHE_ATTR false pmap_batch_set_cache_attributes fuel object user_page_list
        cache_attr n batch_pmap_op =
      some
        { calls :=
            (List.range n).map (fun i =>
              cache_attr_call.set_cache_attributes (user_page_list.entry i).phys_addr cache_attr)
          reads := List.range n
          object := { object with set_cache_attr := true } } ∧
    (∀ fuel', fuel' ≤ n →
      PMAP_BATCH_SET_CACHE_ATTR false pmap_batch_set_cache_attributes fuel' object
        user_page_list cache_attr n batch_pmap_op = none) ∧
    (n = 0 →
      PMAP_BATCH_SET_CACHE_ATTR false pmap_batch_set_cache_attributes fuel object user_page_list
          cache_attr n batch_pmap_op =
        some { calls := [], reads := [], object := { object with set_cache_attr := true } }) := by
  have hmain :=
    batch_macro_loop_result pmap_batch_set_cache_attributes fuel object user_page_list
      cache_attr n batch_pmap_op hop hn hfuel
  refine ⟨hmain, ?_, ?_⟩
  · intro fuel' hle
    have h := batch_set_loop_out_of_fuel user_page_list cache_attr n hn fuel' 0
      { calls := [], reads := [], object := object } (by omega)
    simp [PMAP_BATCH_SET_CACHE_ATTR, hop, h]
  · intro h0
    rw [hmain, h0]
    rfl

/-- Instance of the loop: three pages, entries `100`, `101`, `102`, cache
attribute `2`. -/
theorem PMAP_BATCH_SET_CACHE_ATTR_loop_witness :
    (1 : Nat) ≠ 0 ∧ (3 : Nat) < 2 ^ 32 ∧ (3 : Nat) < 4 ∧
    PMAP_BATCH_SET_CACHE_ATTR false example_batch_fails 4 example_object example_upl 2 3 1 =
      some
        { calls :=
            [cache_attr_call.set_cache_attributes 100 2,
              cache_attr_call.set_cache_attributes 101 2,
              cache_attr_call.set_cache_attributes 102 2]
          reads := [0, 1, 2]
          object := { example_object with set_cache_attr := true } } :=
  ⟨by decide, by decide, by decide,
    (PMAP_BATCH_SET_CACHE_ATTR_loop example_batch_fails 4 example_object example_upl 2 3 1
      (by decide) (by decide) (by decide)).1⟩

/-- C13: `PMAP_SET_CACHE_ATTR` and `PMAP_BATCH_SET_CACHE_ATTR` are
complementary on `batch_pmap_op`. When it is true the single-page macro makes
no call and leaves the object as it is, and the batch macro sets
`object->set_cache_attr`; when it is false the batch macro makes no call and
leaves the object as it is, and the single-page macro calls
`pmap_set_cache_attributes` once, on the physical page of `mem` with
`cache_attr`, and sets `object->set_cache_attr`. The batch macro is either
variant; off ARM `num_pages` is an `unsigned int` and the fuel exceeds it. -/
theorem cache_attr_macros_complementary (env : vm_env) (arm : Bool)
    (pmap_batch_set_cache_attributes : Nat → Nat → Nat → Bool) (fuel : Nat) (mem : vm_page)
    (object : vm_object) (user_page_list : upl_page_info_array)
    (cache_attr num_pages batch_pmap_op : Nat)
    (hterm : arm = true ∨ (num_pages < 2 ^ 32 ∧ num_pages < fuel)) :
    (batch_pmap_op ≠ 0 →
      PMAP_SET_CACHE_ATTR env mem object cache_attr batch_pmap_op =
        { calls := [], reads := [], object := object } ∧
      ∃ st,
        PMAP_BATCH_SET_CACHE_ATTR arm pmap_batch_set_cache_attributes fuel object
          user_page_list cache_attr num_pages batch_pmap_op = some st ∧
        st.object = { object with set_cache_attr := true }) ∧
    (batch_pmap_op = 0 →
      PMAP_BATCH_SET_CACHE_ATTR arm pmap_batch_set_cache_attributes fuel object user_page_list
          cache_attr num_pages batch_pmap_op =
        some { calls := [], reads := [], object := object } ∧
      PMAP_SET_CACHE_ATTR env mem object cache_attr batch_pmap_op =
        { calls :=
            [cache_attr_call.set_cache_attributes (env.VM_PAGE_GET_PHYS_PAGE mem) cache_attr]
          reads := []
          object := { object with set_cache_attr := true } }) := by
  constructor
  · intro hop
    refine ⟨by simp [PMAP_SET_CACHE_ATTR, hop], ?_⟩
    cases arm with
    | true =>
      exact ⟨_, batch_macro_arm_result pmap_batch_set_cache_attributes fuel object
        user_page_list cache_attr num_pages batch_pmap_op hop, rfl⟩
    | false =>
      rcases hterm with h | ⟨hn, hfuel⟩
      · exact Bool.noConfusion h
      · exact ⟨_, batch_macro_loop_result pmap_batch_set_cache_attributes fuel object
          user_page_list cache_attr num_pages batch_pmap_op hop hn hfuel, rfl⟩
  · intro hop
    exact ⟨by simp [PMAP_BATCH_SET_CACHE_ATTR, hop], by simp [PMAP_SET_CACHE_ATTR, hop]⟩

/-- Instance of the complementarity off ARM with `batch_pmap_op` false: only
the single-page macro acts. -/
theorem cache_attr_macros_complementary_witness :
    (false = true ∨ ((3 : Nat) < 2 ^ 32 ∧ (3 : Nat) < 4)) ∧ (0 : Nat) = 0 ∧
    PMAP_BATCH_SET_CACHE_ATTR false example_batch_fails 4 example_object example_upl 2 3 0 =
      some { calls := [], reads := [], object := example_object } ∧
    PMAP_SET_CACHE_ATTR example_env example_page example_object 2 0 =
      { calls :=
          [cache_attr_call.set_cache_attributes
            (example_env.VM_PAGE_GET_PHYS_PAGE example_page) 2]
        reads := []
        object := { example_object with set_cache_attr := true } } :=
  ⟨Or.inr ⟨by decide, by decide⟩, rfl,
    (cache_attr_macros_complementary example_env false example_batch_fails 4 example_page
      example_object example_upl 2 3 0 (Or.inr ⟨by decide, by decide⟩)).2 rfl⟩

/-- C14: for `num_pages` an `unsigned int`, the ARM variant and the other
variant of `PMAP_BATCH_SET_CACHE_ATTR` both finish and leave the same object:
with `set_cache_attr` `TRUE` when `batch_pmap_op` is true, unchanged
otherwise. The ARM variant leaves the same state whatever
`pmap_batch_set_cache_attributes` returns, in particular when it returns
`false`. -/
theorem PMAP_BATCH_SET_CACHE_ATTR_variants_agree
    (pmap_batch_set_cache_attributes : Nat → Nat → Nat → Bool) (fuel : Nat)
    (object : vm_object) (user_page_list : upl_page_info_array)
    (cache_attr num_pages batch_pmap_op : Nat) (hn : num_pages < 2 ^ 32)
    (hfuel : num_pages < fuel) :
    ∃ st_arm st_other : cache_state,
      PMAP_BATCH_SET_CACHE_ATTR true pmap_batch_set_cache_attributes fuel object
          user_page_list cache_attr num_pages batch_pmap_op = some st_arm ∧
      PMAP_BATCH_SET_CACHE_ATTR false pmap_batch_set_cache_attributes fuel object
          user_page_list cache_attr num_pages batch_pmap_op = some st_other ∧
      st_arm.object = st_other.object ∧
      (batch_pmap_op ≠ 0 → st_arm.object = { object with set_cache_attr := true }) ∧
      (batch_pmap_op = 0 → st_arm.object = object) ∧
      (∀ returns : Nat → Nat → Nat → Bool,
        PMAP_BATCH_SET_CACHE_ATTR true returns fuel object user_page_list cache_attr num_pages
          batch_pmap_op = some st_arm) ∧
      PMAP_BATCH_SET_CACHE_ATTR true (fun _ _ _ => false) fuel object user_page_list cache_attr
          num_pages batch_pmap_op = some st_arm := by
  by_cases hop : batch_pmap_op = 0
  · refine ⟨{ calls := [], reads := [], object := object },
      { calls := [], reads := [], object := object }, ?_, ?_, rfl, ?_, ?_, ?_, ?_⟩ <;>
      simp [PMAP_BATCH_SET_CACHE_ATTR, hop]
  · refine ⟨_, _,
      batch_macro_arm_result pmap_batch_set_cache_attributes fuel object user_page_list
        cache_attr num_pages batch_pmap_op hop,
      batch_macro_loop_result pmap_batch_set_cache_attributes fuel object user_page_list
        cache_attr num_pages batch_pmap_op hop hn hfuel, rfl, ?_, ?_, ?_, ?_⟩
    · intro _; rfl
    · intro h0; exact absurd h0 hop
    · intro returns
      exact batch_macro_arm_result returns fuel object user_page_list cache_attr num_pages
        batch_pmap_op hop
    · exact batch_macro_arm_result _ fuel object user_page_list cache_attr num_pages
        batch_pmap_op hop

/-- Instance of the agreement of the variants: three pages, `batch_pmap_op`
true, a batch call that reports failure. -/
theorem PMAP_BATCH_SET_CACHE_ATTR_variants_agree_witness :
    (3 : Nat) < 2 ^ 32 ∧ (3 : Nat) < 4 ∧
    ∃ st_arm st_other : cache_state,
      PMAP_BATCH_SET_CACHE_ATTR true example_batch_fails 4 example_object example_upl 2 3 1 =
        some st_arm ∧
      PMAP_BATCH_SET_CACHE_ATTR false example_batch_fails 4 example_object example_upl 2 3 1 =
        some st_other ∧
      st_arm.object = st_other.object ∧
      ((1 : Nat) ≠ 0 → st_arm.object = { example_object with set_cache_attr := true }) ∧
      ((1 : Nat) = 0 → st_arm.object = example_object) ∧
      (∀ returns : Nat → Nat → Nat → Bool,
        PMAP_BATCH_SET_CACHE_ATTR true returns 4 example_object example_upl 2 3 1 =
          some st_arm) ∧
      PMAP_BATCH_SET_CACHE_ATTR true (fun _ _ _ => false) 4 example_object example_upl 2 3 1 =
        some st_arm :=
  ⟨by decide, by decide,
    PMAP_BATCH_SET_CACHE_ATTR_variants_agree example_batch_fails 4 example_object example_upl 2
      3 1 (by decide) (by decide)⟩

/-! ## The exotic query: theorems -/

/-- C15: off arm64, `pmap_is_exotic(pmap)` is `false` for every pmap in every
state and leaves the state as it is, whatever the arm64 function would do; so
after any sequence of state changes the query still reports `false`. -/
theorem pmap_is_exotic_false_off_arm64 {σ : Type} (pmap_is_exotic_arm64 : σ → Nat → σ × Bool)
    (st : σ) (pmap : Nat) (ops : List (σ → σ)) :
    pmap_is_exotic false pmap_is_exotic_arm64 st pmap = (st, false) ∧
    (pmap_is_exotic false pmap_is_exotic_arm64 (ops.foldl (fun s op => op s) st) pmap).2 =
      false ∧
    (pmap_is_exotic false pmap_is_exotic_arm64 (ops.foldl (fun s op => op s) st) pmap).1 =
      ops.foldl (fun s op => op s) st :=
  ⟨rfl, rfl, rfl⟩

/-! ## The option bits: theorems -/

/-- C16: the eighteen `PMAP_OPTIONS_*` constants have the values of the
header; each is a single bit and two different constants share no bit; an
option tests non-zero in the options word of a set iff it is in the set,
whatever other options the set holds, and two sets have the same options word
iff they are the same set. -/
theorem pmap_options_encode_subsets :
    all_pmap_options.map option_flag =
      [0x1, 0x2, 0x4, 0x8, 0x10, 0x20, 0x40, 0x80, 0x100, 0x200, 0x400, 0x800, 0x1000, 0x2000,
        0x4000, 0x8000, 0x10000, 0x40000] ∧
    (∀ o, o ∈ all_pmap_options) ∧
    (∀ o, ∃ k, option_flag o = 2 ^ k) ∧
    (∀ o o', o ≠ o' → option_flag o &&& option_flag o' = 0) ∧
    (∀ s o, (options_word s &&& option_flag o ≠ 0) ↔ s o = true) ∧
    (∀ s t o, s o = t o →
      ((options_word s &&& option_flag o ≠ 0) ↔ (options_word t &&& option_flag o ≠ 0))) ∧
    (∀ s t, options_word s = options_word t ↔ s = t) := by
  refine ⟨rfl, mem_all_pmap_options, fun o => ⟨option_bit o, option_flag_eq_pow o⟩, ?_,
    options_word_test, ?_, ?_⟩
  · intro o o' hne
    rw [option_flag_eq_pow, option_flag_eq_pow]
    exact two_pow_and_two_pow _ _ (fun h => hne (option_bit_injective o o' h))
  · intro s t o hst
    rw [options_word_test, options_word_test, hst]
  · intro s t
    constructor
    · intro h
      funext o
      have hs := options_word_testBit s o
      have ht := options_word_testBit t o
      rw [h] at hs
      exact hs.symm.trans ht
    · intro h
      rw [h]

end Pmap
